import Mathlib

/-!
# PANDA `taint2` plugin: orchestration layer

A shallow embedding of `panda/plugins/taint2/taint2.cpp`: the guest hypercall
handler (x86 and ARM builds), the LAVA taint query, the attack-point record,
the enable transition, the block-boundary hooks and plugin load/unload.

Conventions.
* `uint32_t` values are natural numbers reduced modulo `U32 = 2^32` wherever
  the C code can wrap; `(int) x == -1` on a `uint32_t` is `x = U32 - 1`.
* Globals of the translation unit (and the two host globals it assigns,
  `execute_llvm` and `generate_llvm`) are the fields of `Engine`.
* Host services and external collaborators that the file only *reads* are
  the fields of `Host`; services it *requests* are appended to
  `Engine.host_calls`; `printf` lines are appended to `Engine.stdout`.
* A run that dereferences the null `shadow`, calls `exit`, fails an `assert`
  or stores outside a local array ends in `Except.error`; so does a loop that
  is given too little fuel, which the scan loop with its `2^32` never is.
* Declarations of other files (`taint2.h`, `taint_api.cpp`, the host) are
  parameters (`Host`, `RegIndex`) or are modelled from the specification and
  marked so.
-/

namespace Taint2

/-- Modulus of `uint32_t` arithmetic. -/
def U32 : Nat := 4294967296

/-- Modulus of `hwaddr` (`uint64_t`) arithmetic. -/
def U64 : Nat := 18446744073709551616

/-- The constant `QUERY_HYPERCALL_MAX_LEN` (line 111). -/
def QUERY_HYPERCALL_MAX_LEN : Nat := 32

/-- A label-set: the labels attached to one byte; `[]` is untainted. -/
abbrev LabelSet := List Nat

/-- The address tags this file constructs (`taint2.h` declares the full enum). -/
inductive AddrType where
  | MADDR
  | LADDR
  | GREG
  | GSPEC
  | RET
  deriving DecidableEq, Repr

/-- The `Addr` struct as this file fills it: tag, union payload, offset, flag.
The widths of the fields are declared in `taint2.h`; here every coordinate is
a natural number. -/
structure Addr where
  typ : AddrType
  val : Nat
  off : Nat
  flag : Nat
  deriving DecidableEq, Repr

/-- Modelled from the spec: `make_maddr(pa)` of `taint2.h`, the constructor of
`PhysicalMemory(pa)`; the payload is the physical address, offset and flag 0. -/
def make_maddr (pa : Nat) : Addr := ⟨AddrType.MADDR, pa, 0, 0⟩

/-- One shadow region: a sparse map from byte offset to label-set, the first
binding of an offset being the current one. -/
abbrev FastShad := List (Nat × LabelSet)

/-- The five shadow regions owned by `ShadowState`. -/
structure ShadowState where
  llv : FastShad
  ram : FastShad
  grv : FastShad
  gsv : FastShad
  ret : FastShad
  deriving DecidableEq, Repr

/-- A freshly constructed `ShadowState`: no byte carries a label. -/
def ShadowState.fresh : ShadowState := ⟨[], [], [], [], []⟩

/-- Label-set stored at an offset of a region; absent means empty. -/
def FastShad.query (r : FastShad) (off : Nat) : LabelSet :=
  match r.lookup off with
  | some ls => ls
  | none => []

/-- Replace the label-set at one offset of a region. -/
def FastShad.set (r : FastShad) (off : Nat) (ls : LabelSet) : FastShad :=
  (off, ls) :: r

/-- Why a run of the plugin ends abnormally. -/
inductive Abort where
  | null_shadow
  | exit (code : Nat)
  | out_of_bounds
  | assert_failed
  | out_of_fuel
  deriving DecidableEq, Repr

/-- The guest request structure `PandaHypercallStruct`; every field is a
32-bit unsigned word (the handler compares `(int) phs.len` with `-1` and adds
`phs.buf` to a `uint32_t`). -/
structure PandaHypercallStruct where
  magic : Nat
  action : Nat
  buf : Nat
  len : Nat
  label_num : Nat
  src_column : Nat
  src_filename : Nat
  src_linenum : Nat
  src_ast_node_name : Nat
  info : Nat
  insertion_point : Nat
  deriving DecidableEq, Repr

/-- Host state and external collaborators that the handlers only read. -/
structure Host where
  /-- The global `pandalog`: is the event log active. -/
  pandalog : Bool
  /-- The service `panda_virt_to_phys`: a `hwaddr`, `U64 - 1` when unmapped. -/
  panda_virt_to_phys : Nat → Nat
  /-- One-byte `panda_virtual_memory_rw` read: `none` when the read fails. -/
  panda_virtual_memory_rw : Nat → Option Nat
  /-- The struct-sized read of `panda_virtual_memory_rw` into `phs`. -/
  read_phs : Nat → PandaHypercallStruct
  /-- Indeterminate content of the uninitialised `c` of the scan loop, by offset. -/
  stale_scan : Nat → Nat
  /-- Indeterminate content of the uninitialised `c` of the snippet loop, by index. -/
  stale_data : Nat → Nat
  /-- The collaborator `taint2_num_labels_applied()`. -/
  taint2_num_labels_applied : Nat
  /-- The stack snapshot `pandalog_callstack_create()` returns. -/
  callstack : List Nat
  /-- The counter `rr_get_guest_instr_count()`. -/
  rr_get_guest_instr_count : Nat
  /-- Functions of the LLVM module: identifier and `isDeclaration()`. -/
  module_functions : List (Nat × Bool)
  /-- Does `verifyModule` report a broken module. -/
  verifyModule : Bool
  /-- Arguments given to the plugin: `no_tp`, `inline`, `opt`, `debug`. -/
  arg_no_tp : Bool
  arg_inline : Bool
  arg_opt : Bool
  arg_debug : Bool
  /-- Result of `init_callstack_instr_api()`. -/
  init_callstack_instr_api : Bool
  /-- The constant `MAXREGSIZE` of the taint headers. -/
  MAXREGSIZE : Nat
  /-- The size `sizeof(target_ulong)` of the target, in bytes. -/
  sizeof_target_ulong : Nat
  /-- Indeterminate initial content of the local array `data`. -/
  stale_array : Nat → Nat
  /-- Is the build flag `TAINT2_HYPERCALLS` defined. -/
  TAINT2_HYPERCALLS : Bool

/-- Source-location message `Panda__SrcInfo`. -/
structure SrcInfo where
  filename : Nat
  astnodename : Nat
  linenum : Nat
  has_insertionpoint : Nat
  insertionpoint : Nat
  has_ast_loc_id : Nat
  ast_loc_id : Nat
  deriving DecidableEq, Repr

/-- One per-offset entry `Panda__TaintQuery` of a query record. -/
structure TaintQuery where
  offset : Nat
  labels : LabelSet
  deriving DecidableEq, Repr

/-- The record `Panda__TaintQueryHypercall`. -/
structure TaintQueryHypercall where
  buf : Nat
  len : Nat
  num_tainted : Nat
  n_data : Nat
  data : List Nat
  src_info : SrcInfo
  call_stack : List Nat
  n_taint_query : Nat
  taint_query : List TaintQuery
  deriving DecidableEq, Repr

/-- The record `Panda__AttackPoint`. -/
structure AttackPoint where
  info : Nat
  src_info : SrcInfo
  call_stack : List Nat
  deriving DecidableEq, Repr

/-- A `Panda__LogEntry` as this file writes it. -/
inductive LogEntry where
  | taint_query_hypercall (r : TaintQueryHypercall)
  | attack_point (r : AttackPoint)
  deriving DecidableEq, Repr

/-- Kinds of host callback the plugin registers. -/
inductive CallbackKind where
  | BEFORE_BLOCK_EXEC_INVALIDATE_OPT
  | PHYS_MEM_BEFORE_READ
  | PHYS_MEM_BEFORE_WRITE
  | ASID_CHANGED
  | GUEST_HYPERCALL
  deriving DecidableEq, Repr

/-- Services the plugin requests from the host and from LLVM, in call order. -/
inductive HostCall where
  | panda_register_callback (k : CallbackKind)
  | panda_enable_precise_pc
  | panda_enable_llvm
  | panda_enable_llvm_helpers
  | panda_disable_llvm
  | panda_do_flush_tb
  | panda_enable_memcb
  | panda_disable_memcb
  | panda_enable_tb_chaining
  | panda_disable_tb_chaining
  | populateFunctionPassManager (optLevel sizeLevel : Nat)
  | fpm_add_taint_pass
  | fpm_doInitialization
  | runOnFunction (f : Nat)
  | panda_require_callstack_instr
  | on_taint_change (a : Addr) (size : Nat)
  deriving DecidableEq, Repr

/-- Diagnostic lines the file prints (`printf` and `std::cerr`). -/
inductive Diag where
  | single_taint_label
  | positional_taint_label
  | invalid_ptr (vaddr paddr : Nat)
  | unknown_action (action : Nat)
  | invalid_magic (magic : Nat)
  | label_detected (instr : Nat)
  | enabling_taint
  | query_detected (instr : Nat)
  | enable_taint_banner
  | llvm_optimizations (status : Bool)
  | helpers_done
  | verify_failed
  | verify_done
  | flag_status (name : Nat) (status : Bool)
  deriving DecidableEq, Repr

/-- Globals of `taint2.cpp`, the two host globals it assigns, and its outputs. -/
structure Engine where
  shadow : Option ShadowState
  taint2_plugin : Option Nat
  fpm_installed : Bool
  ptfp_installed : Bool
  taintEnabled : Bool
  taintJustDisabled : Bool
  track_taint_state : Bool
  taint_memlog : List Nat
  tainted_pointer : Bool
  optimize_llvm : Bool
  inline_taint : Bool
  debug_taint : Bool
  execute_llvm : Nat
  generate_llvm : Nat
  host_calls : List HostCall
  pandalog_entries : List LogEntry
  stdout : List Diag
  deriving DecidableEq, Repr

/-- The globals before `init_plugin`: the initialisers of lines 69-99, with
`inline_taint`, `execute_llvm` and `generate_llvm` (defined elsewhere) off. -/
def Engine.initial : Engine :=
  { shadow := none, taint2_plugin := none, fpm_installed := false, ptfp_installed := false,
    taintEnabled := false, taintJustDisabled := false, track_taint_state := false,
    taint_memlog := [], tainted_pointer := true, optimize_llvm := true, inline_taint := false,
    debug_taint := false, execute_llvm := 0, generate_llvm := 0, host_calls := [],
    pandalog_entries := [], stdout := [] }

/-- Modelled from the spec: the shadow-memory read behind `taint2_query` and
`taint2_query_pandalog` (both in `taint_api.cpp`): the label-set at the one
location of the one region the address names. -/
def ShadowState.labels (h : Host) (sh : ShadowState) (a : Addr) : LabelSet :=
  match a.typ with
  | AddrType.MADDR => sh.ram.query a.val
  | AddrType.LADDR => sh.llv.query (a.val * h.MAXREGSIZE + a.off)
  | AddrType.GREG => sh.grv.query (a.val * h.sizeof_target_ulong + a.off)
  | AddrType.GSPEC => sh.gsv.query a.val
  | AddrType.RET => sh.ret.query a.off

/-- Modelled from the spec: `taint2_query(a)` of `taint_api.cpp`, the size of
the label-set at `a` (non-zero exactly when the byte is tainted); reading
through the null container fails fast. -/
def taint2_query (h : Host) (shadow : Option ShadowState) (a : Addr) : Except Abort Nat :=
  match shadow with
  | none => .error Abort.null_shadow
  | some sh => .ok (sh.labels h a).length

/-- Modelled from the spec: `taint2_query_pandalog(a, offset)` of
`taint_api.cpp`, the per-offset entry carrying the label-set at `a`. -/
def taint2_query_pandalog (h : Host) (shadow : Option ShadowState) (a : Addr) (offset : Nat) :
    Except Abort TaintQuery :=
  match shadow with
  | none => .error Abort.null_shadow
  | some sh => .ok ⟨offset, sh.labels h a⟩

/-- The function `pandalog_src_info_create` (lines 116-130). -/
def pandalog_src_info_create (phs : PandaHypercallStruct) : SrcInfo :=
  { filename := phs.src_filename
    astnodename := phs.src_ast_node_name
    linenum := phs.src_linenum
    has_insertionpoint := if phs.insertion_point ≠ 0 then 1 else 0
    insertionpoint := if phs.insertion_point ≠ 0 then phs.insertion_point else 0
    has_ast_loc_id := 1
    ast_loc_id := phs.src_filename }

/-- Result of the scan loop: final `offset`, `num_tainted`, and the offsets
whose taint was examined (those that reached line 152), in order. -/
structure Scan where
  offset : Nat
  num_tainted : Nat
  examined : List Nat
  deriving DecidableEq, Repr

/-- The `while (true)` loop of `taint_query_hypercall` (lines 143-162), started
at `offset` with `num_tainted` bytes counted; `fuel` bounds the iterations. -/
def scan_loop (h : Host) (shadow : Option ShadowState) (phs : PandaHypercallStruct)
    (is_strnlen : Bool) : Nat → Nat → Nat → Except Abort Scan
  | 0, _, _ => .error Abort.out_of_fuel
  | fuel + 1, offset, num_tainted =>
    let va := (phs.buf + offset) % U32
    let pa := h.panda_virt_to_phys va % U32
    let c := match h.panda_virtual_memory_rw pa with
      | some b => b % 256
      | none => h.stale_scan offset % 256
    if is_strnlen && c == 0 then .ok ⟨offset, num_tainted, []⟩
    else do
      let num_tainted1 ←
        if pa ≠ U32 - 1 then do
          let q ← taint2_query h shadow (make_maddr pa)
          pure (if q ≠ 0 then (num_tainted + 1) % U32 else num_tainted)
        else pure num_tainted
      let offset1 := (offset + 1) % U32
      if !is_strnlen && offset1 == phs.len then pure ⟨offset1, num_tainted1, [offset]⟩
      else if is_strnlen && offset1 == QUERY_HYPERCALL_MAX_LEN then
        pure ⟨offset1, num_tainted1, [offset]⟩
      else do
        let r ← scan_loop h shadow phs is_strnlen fuel offset1 num_tainted1
        pure { r with examined := offset :: r.examined }

/-- The snippet loop (lines 179-184): `k` iterations from index `i`, each
storing the byte read at guest-virtual `phs.buf + i` into `data[i]`; a store
outside the 32-element array aborts. -/
def snippet_loop (h : Host) (phs : PandaHypercallStruct) :
    Nat → Nat → (Nat → Nat) → Except Abort (Nat → Nat)
  | 0, _, data => .ok data
  | k + 1, i, data =>
    let c := match h.panda_virtual_memory_rw ((phs.buf + i) % U32) with
      | some b => b % 256
      | none => h.stale_data i % 256
    if i < QUERY_HYPERCALL_MAX_LEN then
      snippet_loop h phs k (i + 1) (Function.update (Function.update data i 0) i c)
    else .error Abort.out_of_bounds

/-- The entry-collecting loop (lines 194-203): `k` iterations from `offset`. -/
def collect_queries (h : Host) (shadow : Option ShadowState) (phs : PandaHypercallStruct) :
    Nat → Nat → Except Abort (List TaintQuery)
  | 0, _ => .ok []
  | k + 1, offset => do
    let va := (phs.buf + offset) % U32
    let pa := h.panda_virt_to_phys va % U32
    let here ←
      if pa ≠ U32 - 1 then do
        let q ← taint2_query h shadow (make_maddr pa)
        if q ≠ 0 then do
          let e ← taint2_query_pandalog h shadow (make_maddr pa) offset
          pure [e]
        else pure []
      else pure []
    let rest ← collect_queries h shadow phs k (offset + 1)
    pure (here ++ rest)

/-- The function `taint_query_hypercall` (lines 135-220). -/
def taint_query_hypercall (h : Host) (phs : PandaHypercallStruct) (s : Engine) :
    Except Abort Engine :=
  if h.pandalog && s.taintEnabled && decide (0 < h.taint2_num_labels_applied) then do
    let is_strnlen := decide (phs.len = U32 - 1)
    let sc ← scan_loop h s.shadow phs is_strnlen U32 0 0
    let len := sc.offset
    if sc.num_tainted ≠ 0 then do
      let n := if QUERY_HYPERCALL_MAX_LEN < len then QUERY_HYPERCALL_MAX_LEN else len
      let data ← snippet_loop h phs n 0 h.stale_array
      let tq ← collect_queries h s.shadow phs len 0
      let tqh : TaintQueryHypercall :=
        { buf := phs.buf, len := len, num_tainted := sc.num_tainted, n_data := n,
          data := (List.range n).map data, src_info := pandalog_src_info_create phs,
          call_stack := h.callstack, n_taint_query := tq.length, taint_query := tq }
      pure { s with pandalog_entries := s.pandalog_entries ++ [LogEntry.taint_query_hypercall tqh] }
    else pure s
  else pure s

/-- The function `lava_attack_point` (lines 222-236). -/
def lava_attack_point (h : Host) (phs : PandaHypercallStruct) (s : Engine) : Engine :=
  if h.pandalog then
    { s with pandalog_entries := s.pandalog_entries ++
        [LogEntry.attack_point ⟨phs.info, pandalog_src_info_create phs, h.callstack⟩] }
  else s

/-- Register-index constants of the x86 target header (`R_EAX`, `R_EBX`,
`R_ECX`, `R_EDI`), which the handler uses through its `EAX`... macros. -/
structure RegIndex where
  R_EAX : Nat
  R_EBX : Nat
  R_ECX : Nat
  R_EDI : Nat
  deriving DecidableEq, Repr

/-- The target a build of the handler is compiled for. -/
inductive Target where
  | I386 (R : RegIndex)
  | ARM
  | OTHER
  deriving DecidableEq, Repr

/-- The part of `CPUState` the handlers read: the general-purpose registers. -/
structure CPUState where
  regs : Nat → Nat

/-- The part of `TranslationBlock` the hooks read; `llvm_tc_ptr = 0` is null. -/
structure TranslationBlock where
  llvm_tc_ptr : Nat
  deriving DecidableEq, Repr

/-- Modelled from the spec: `taint2_label_ram(pa, l)` of `taint_api.cpp`, which
makes `{l}` the label-set of the physical byte `pa`. -/
def taint2_label_ram (shadow : Option ShadowState) (pa l : Nat) :
    Except Abort (Option ShadowState) :=
  match shadow with
  | none => .error Abort.null_shadow
  | some sh => .ok (some { sh with ram := sh.ram.set pa [l] })

/-- Modelled from the spec: the labeling loop shared by the two routines of
`taint_api.cpp`: byte `i` of the buffer receives label `label i`; a byte whose
address does not resolve is skipped. -/
def add_taint_ram (h : Host) (addr : Nat) (label : Nat → Nat) :
    Nat → Nat → Option ShadowState → Except Abort (Option ShadowState)
  | 0, _, shadow => .ok shadow
  | k + 1, i, shadow =>
    let pa := h.panda_virt_to_phys ((addr + i) % U64)
    if pa = U64 - 1 then add_taint_ram h addr label k (i + 1) shadow
    else do
      let shadow1 ← taint2_label_ram shadow pa (label i)
      add_taint_ram h addr label k (i + 1) shadow1

/-- Modelled from the spec: `taint2_add_taint_ram_single_label` of
`taint_api.cpp`: one shared label for the whole buffer. -/
def taint2_add_taint_ram_single_label (h : Host) (addr length label : Nat) (s : Engine) :
    Except Abort Engine := do
  let shadow1 ← add_taint_ram h addr (fun _ => label) length 0 s.shadow
  pure { s with shadow := shadow1 }

/-- Modelled from the spec: `taint2_add_taint_ram_pos` of `taint_api.cpp`:
label-at-offset = base-label + position. -/
def taint2_add_taint_ram_pos (h : Host) (addr length label : Nat) (s : Engine) :
    Except Abort Engine := do
  let shadow1 ← add_taint_ram h addr (fun i => (label + i) % U32) length 0 s.shadow
  pure { s with shadow := shadow1 }

/-- Modelled from the spec: the host service `panda_enable_llvm`, which
switches the host into instrumented-execution mode. -/
def panda_enable_llvm (s : Engine) : Engine :=
  { s with execute_llvm := 1, generate_llvm := 1,
           host_calls := s.host_calls ++ [HostCall.panda_enable_llvm] }

/-- Modelled from the spec: the host service `panda_disable_llvm`, which
switches instrumented-execution mode off. -/
def panda_disable_llvm (s : Engine) : Engine :=
  { s with execute_llvm := 0, generate_llvm := 0,
           host_calls := s.host_calls ++ [HostCall.panda_disable_llvm] }

/-- Append requests to the trace of host services. -/
def Engine.call (s : Engine) (cs : List HostCall) : Engine :=
  { s with host_calls := s.host_calls ++ cs }

/-- Append diagnostic lines. -/
def Engine.print (s : Engine) (ds : List Diag) : Engine :=
  { s with stdout := s.stdout ++ ds }

/-- The function `taint2_enable_taint` (lines 343-406). -/
def taint2_enable_taint (h : Host) (s : Engine) : Except Abort Engine :=
  if s.taintEnabled then .ok s
  else
    let s1 := { s.print [Diag.enable_taint_banner] with taintEnabled := true }
    let s2 := s1.call
      [HostCall.panda_register_callback CallbackKind.BEFORE_BLOCK_EXEC_INVALIDATE_OPT,
       HostCall.panda_register_callback CallbackKind.PHYS_MEM_BEFORE_READ,
       HostCall.panda_register_callback CallbackKind.PHYS_MEM_BEFORE_WRITE,
       HostCall.panda_register_callback CallbackKind.ASID_CHANGED,
       HostCall.panda_enable_precise_pc]
    let s3 := if s2.execute_llvm = 0 then panda_enable_llvm s2 else s2
    let s4 := s3.call [HostCall.panda_enable_llvm_helpers]
    let s5 := { s4 with shadow := some ShadowState.fresh, taint_memlog := [],
                        fpm_installed := true }
    let s6 := s5.print [Diag.llvm_optimizations s5.optimize_llvm]
    let s7 := if s6.optimize_llvm then s6.call [HostCall.populateFunctionPassManager 2 0] else s6
    let s8 := { s7.call [HostCall.fpm_add_taint_pass, HostCall.fpm_doInitialization] with
                ptfp_installed := true }
    let s9 := s8.call ((h.module_functions.filter (fun f => !f.2)).map
                (fun f => HostCall.runOnFunction f.1))
    let s10 := s9.print [Diag.helpers_done]
    if h.verifyModule then .error (Abort.exit 1)
    else .ok (s10.print [Diag.verify_done])

/-- The function `guest_hypercall_callback` (lines 238-323), one build per
target. -/
def guest_hypercall_callback (t : Target) (h : Host) (cpu : CPUState) (s : Engine) :
    Except Abort (Nat × Engine) :=
  match t with
  | Target.I386 R =>
    let EAX := cpu.regs R.R_EAX
    let EBX := cpu.regs R.R_EBX
    let ECX := cpu.regs R.R_ECX
    let EDI := cpu.regs R.R_EDI
    if s.taintEnabled then
      if EAX = 7 ∨ EAX = 8 then
        let buf_start := EBX
        let buf_len := ECX
        let label := EDI
        if R.R_EAX = 7 then do
          let s1 ← taint2_add_taint_ram_single_label h buf_start (buf_len % U32) label
            (s.print [Diag.single_taint_label])
          pure (1, s1)
        else if R.R_EAX = 8 then do
          let s1 ← taint2_add_taint_ram_pos h buf_start (buf_len % U32) (label % U32)
            (s.print [Diag.positional_taint_label])
          pure (1, s1)
        else pure (1, s)
      else
        let addr := h.panda_virt_to_phys EAX
        if addr % U32 = U32 - 1 then
          pure (1, s.print [Diag.invalid_ptr (EAX % U32) (addr % U32)])
        else if h.pandalog then
          let phs := h.read_phs EAX
          if phs.magic = 0xabcd then
            if phs.action = 11 then do
              let s1 ← taint_query_hypercall h phs s
              pure (1, s1)
            else if phs.action = 12 then pure (1, lava_attack_point h phs s)
            else if phs.action = 13 then pure (1, s)
            else if phs.action = 14 then pure (1, s)
            else pure (1, s.print [Diag.unknown_action phs.action])
          else pure (1, s.print [Diag.invalid_magic phs.magic])
        else pure (1, s)
    else pure (1, s)
  | Target.ARM =>
    if cpu.regs 0 = 7 ∨ cpu.regs 0 = 8 then
      if !s.taintEnabled then do
        let s1 ← taint2_enable_taint h
          (s.print [Diag.label_detected h.rr_get_guest_instr_count, Diag.enabling_taint])
        pure (1, s1)
      else pure (1, s)
    else if cpu.regs 0 = 9 then
      if s.taintEnabled then pure (1, s.print [Diag.query_detected h.rr_get_guest_instr_count])
      else pure (1, s)
    else pure (1, s)
  | Target.OTHER => pure (0, s)

/-- Modelled from the spec: `taint_memlog_push` of the memo log: the address
is recorded after the entries already present. -/
def taint_memlog_push (log : List Nat) (addr : Nat) : List Nat := log ++ [addr]

/-- The function `phys_mem_write_callback` (lines 328-331). -/
def phys_mem_write_callback (addr : Nat) (s : Engine) : Nat × Engine :=
  (0, { s with taint_memlog := taint_memlog_push s.taint_memlog addr })

/-- The function `phys_mem_read_callback` (lines 333-336). -/
def phys_mem_read_callback (addr : Nat) (s : Engine) : Nat × Engine :=
  (0, { s with taint_memlog := taint_memlog_push s.taint_memlog addr })

/-- The function `taint2_enable_tainted_pointer` (lines 338-340). -/
def taint2_enable_tainted_pointer (s : Engine) : Engine :=
  { s with tainted_pointer := true }

/-- The function `after_block_exec` (lines 409-418). -/
def after_block_exec (s : Engine) : Nat × Engine :=
  if s.taintJustDisabled then
    (0, ({ s with taintJustDisabled := false, execute_llvm := 0, generate_llvm := 0 }).call
          [HostCall.panda_do_flush_tb, HostCall.panda_disable_memcb])
  else (0, s)

/-- The function `before_block_exec_invalidate_opt` (lines 473-478): the
answer given to the host, and the engine state after the call. -/
def before_block_exec_invalidate_opt (tb : TranslationBlock) (s : Engine) : Bool × Engine :=
  if s.taintEnabled then
    (if tb.llvm_tc_ptr ≠ 0 then false else true, s)
  else (false, s)

/-- The shadow store a change notification comes from: one of the five
regions of `shadow`, or some other store. -/
inductive ShadRef where
  | llv
  | ram
  | grv
  | gsv
  | ret
  | other (id : Nat)
  deriving DecidableEq, Repr

/-- Modelled from the spec: `make_laddr(a, o)` of `taint2.h`, the constructor
of `LocalValue(a, o)`. -/
def make_laddr (a o : Nat) : Addr := ⟨AddrType.LADDR, a, o, 0⟩

/-- Modelled from the spec: `make_greg(r, off)` of `taint2.h`, the constructor
of `CpuRegister(r, off)`. -/
def make_greg (r off : Nat) : Addr := ⟨AddrType.GREG, r, off, 0⟩

/-- The address `taint_state_changed` builds (lines 451-468), if any. -/
def taint_state_changed_addr (h : Host) (fast_shad : ShadRef) (shad_addr : Nat) : Option Addr :=
  match fast_shad with
  | ShadRef.llv => some (make_laddr (shad_addr / h.MAXREGSIZE) (shad_addr % h.MAXREGSIZE))
  | ShadRef.ram => some (make_maddr shad_addr)
  | ShadRef.grv =>
    some (make_greg (shad_addr / h.sizeof_target_ulong) (shad_addr % h.sizeof_target_ulong))
  | ShadRef.gsv => some ⟨AddrType.GSPEC, shad_addr, 0, 0⟩
  | ShadRef.ret => some ⟨AddrType.RET, 0, shad_addr, 0⟩
  | ShadRef.other _ => none

/-- The function `taint_state_changed` (lines 450-471): the registered
`on_taint_change` observers are run with the address and the size. -/
def taint_state_changed (h : Host) (fast_shad : ShadRef) (shad_addr size : Nat) (s : Engine) :
    Engine :=
  match taint_state_changed_addr h fast_shad shad_addr with
  | some addr => s.call [HostCall.on_taint_change addr size]
  | none => s

/-- The function `init_plugin` (lines 486-522). -/
def init_plugin (h : Host) (self : Nat) (s : Engine) : Except Abort (Bool × Engine) :=
  let s1 := { s with taint2_plugin := some self }
  let s2 := s1.call [HostCall.panda_enable_memcb, HostCall.panda_disable_tb_chaining]
  let s3 := if h.TAINT2_HYPERCALLS then
      s2.call [HostCall.panda_register_callback CallbackKind.GUEST_HYPERCALL] else s2
  let s4 := { s3 with tainted_pointer := !h.arg_no_tp }
  let s5 := s4.print [Diag.flag_status 0 s4.tainted_pointer]
  let s6 := { s5 with inline_taint := h.arg_inline }
  let s7 := s6.print [Diag.flag_status 1 s6.inline_taint]
  let s8 := { s7 with optimize_llvm := h.arg_opt }
  let s9 := s8.print [Diag.flag_status 2 s8.optimize_llvm]
  let s10 := { s9 with debug_taint := h.arg_debug }
  let s11 := s10.print [Diag.flag_status 3 s10.debug_taint]
  let s12 := s11.call [HostCall.panda_require_callstack_instr]
  if h.init_callstack_instr_api then .ok (true, s12)
  else .error Abort.assert_failed

/-- The function `uninit_plugin` (lines 524-533). -/
def uninit_plugin (s : Engine) : Engine :=
  let s1 := if s.shadow.isSome then { s with shadow := none } else s
  let s2 := panda_disable_llvm s1
  s2.call [HostCall.panda_disable_memcb, HostCall.panda_enable_tb_chaining]

/-- The operations of the file that act on the engine, with their arguments. -/
inductive Op where
  | taint_query_hypercall (phs : PandaHypercallStruct)
  | lava_attack_point (phs : PandaHypercallStruct)
  | guest_hypercall_callback (t : Target) (cpu : CPUState)
  | phys_mem_write_callback (addr : Nat)
  | phys_mem_read_callback (addr : Nat)
  | taint2_enable_tainted_pointer
  | taint2_enable_taint
  | after_block_exec
  | taint_state_changed (fast_shad : ShadRef) (shad_addr size : Nat)
  | before_block_exec_invalidate_opt (tb : TranslationBlock)
  | init_plugin (self : Nat)
  | uninit_plugin

/-- Engine state after one operation. -/
def step (h : Host) (op : Op) (s : Engine) : Except Abort Engine :=
  match op with
  | Op.taint_query_hypercall phs => taint_query_hypercall h phs s
  | Op.lava_attack_point phs => .ok (lava_attack_point h phs s)
  | Op.guest_hypercall_callback t cpu => (guest_hypercall_callback t h cpu s).map Prod.snd
  | Op.phys_mem_write_callback addr => .ok (phys_mem_write_callback addr s).2
  | Op.phys_mem_read_callback addr => .ok (phys_mem_read_callback addr s).2
  | Op.taint2_enable_tainted_pointer => .ok (taint2_enable_tainted_pointer s)
  | Op.taint2_enable_taint => taint2_enable_taint h s
  | Op.after_block_exec => .ok (after_block_exec s).2
  | Op.taint_state_changed r a n => .ok (taint_state_changed h r a n s)
  | Op.before_block_exec_invalidate_opt tb => .ok (before_block_exec_invalidate_opt tb s).2
  | Op.init_plugin self => (init_plugin h self s).map Prod.snd
  | Op.uninit_plugin => .ok (uninit_plugin s)

/-- Engine state after a sequence of operations, stopping at the first abort. -/
def run (h : Host) : List Op → Engine → Except Abort Engine
  | [], s => .ok s
  | op :: ops, s => do
    let s1 ← step h op s
    run h ops s1

/-! ## Notions used by the statements, and concrete inputs -/

/-- Does the scan loop see a terminator at offset `o`: the byte it reads there
(at the address `pa`, taken as guest-virtual) is zero. -/
def terminator_at (h : Host) (phs : PandaHypercallStruct) (o : Nat) : Bool :=
  (match h.panda_virtual_memory_rw (h.panda_virt_to_phys ((phs.buf + o) % U32) % U32) with
    | some b => b % 256
    | none => h.stale_scan o % 256) == 0

/-- Does offset `o` of the buffer resolve to a physical byte whose label-set
is non-empty, as lines 144-154 decide it: the translated address is held in a
`uint32_t`, and the all-ones value means that the address did not resolve. -/
def tainted_at (h : Host) (sh : ShadowState) (phs : PandaHypercallStruct) (o : Nat) : Bool :=
  decide (h.panda_virt_to_phys ((phs.buf + o) % U32) % U32 ≠ U32 - 1) &&
  decide ((sh.labels h (make_maddr (h.panda_virt_to_phys ((phs.buf + o) % U32) % U32))).length ≠ 0)

/-- The two end-of-iteration tests of the scan loop (lines 160-161). -/
def exits_after (phs : PandaHypercallStruct) (is_strnlen : Bool) (x : Nat) : Bool :=
  (!is_strnlen && x == phs.len) || (is_strnlen && x == QUERY_HYPERCALL_MAX_LEN)

/-- Number of tainted offsets among `o, o+1, ..., o+k-1`. -/
def count_tainted (h : Host) (sh : ShadowState) (phs : PandaHypercallStruct) (o k : Nat) : Nat :=
  ((List.range' o k).filter (tainted_at h sh phs)).length

/-- The truncated physical address the loops compute for offset `o`. -/
def pa_at (h : Host) (phs : PandaHypercallStruct) (o : Nat) : Nat :=
  h.panda_virt_to_phys ((phs.buf + o) % U32) % U32

/-- The byte the snippet loop stores at index `i`. -/
def snippet_byte (h : Host) (phs : PandaHypercallStruct) (i : Nat) : Nat :=
  match h.panda_virtual_memory_rw ((phs.buf + i) % U32) with
  | some b => b % 256
  | none => h.stale_data i % 256

/-- The entries the record carries for the scanned length `len`: one per
tainted offset below `len`, in increasing order. -/
def expected_entries (h : Host) (sh : ShadowState) (phs : PandaHypercallStruct) (o k : Nat) :
    List TaintQuery :=
  ((List.range' o k).filter (tainted_at h sh phs)).map
    (fun x => ⟨x, sh.labels h (make_maddr (pa_at h phs x))⟩)

/-- The record `taint_query_hypercall` writes for a completed scan. -/
def query_record (h : Host) (sh : ShadowState) (phs : PandaHypercallStruct) (sc : Scan) :
    TaintQueryHypercall :=
  { buf := phs.buf, len := sc.offset, num_tainted := sc.num_tainted,
    n_data := min sc.offset QUERY_HYPERCALL_MAX_LEN,
    data := (List.range (min sc.offset QUERY_HYPERCALL_MAX_LEN)).map (snippet_byte h phs),
    src_info := pandalog_src_info_create phs, call_stack := h.callstack,
    n_taint_query := (expected_entries h sh phs 0 sc.offset).length,
    taint_query := expected_entries h sh phs 0 sc.offset }

/-- Host of the zero-length query: identity address translation, a readable
guest memory of zero bytes, the log active, one label applied. -/
def zero_len_host : Host :=
  { pandalog := true, panda_virt_to_phys := fun va => va,
    panda_virtual_memory_rw := fun _ => some 0,
    read_phs := fun _ => ⟨0, 0, 0, 0, 0, 0, 0, 0, 0, 0, 0⟩,
    stale_scan := fun _ => 0, stale_data := fun _ => 0, taint2_num_labels_applied := 1,
    callstack := [], rr_get_guest_instr_count := 0, module_functions := [],
    verifyModule := false, arg_no_tp := false, arg_inline := false, arg_opt := false,
    arg_debug := false, init_callstack_instr_api := true, MAXREGSIZE := 16,
    sizeof_target_ulong := 4, stale_array := fun _ => 0, TAINT2_HYPERCALLS := true }

/-- A query request (action 11) for the buffer at 4096 with explicit length 0. -/
def zero_len_request : PandaHypercallStruct :=
  { magic := 0xabcd, action := 11, buf := 4096, len := 0, label_num := 0, src_column := 0,
    src_filename := 0, src_linenum := 0, src_ast_node_name := 0, info := 0,
    insertion_point := 0 }

/-- Shadow memory in which only the physical byte 64 carries a label. -/
def zero_len_shadow : ShadowState := { ShadowState.fresh with ram := [(64, [5])] }

/-- Engine with taint enabled over `zero_len_shadow`. -/
def zero_len_engine : Engine :=
  { Engine.initial with taintEnabled := true, shadow := some zero_len_shadow }

/-- The record the zero-length query writes. -/
def zero_len_record : TaintQueryHypercall :=
  { buf := 4096, len := 0, num_tainted := 1, n_data := 0, data := [],
    src_info := ⟨0, 0, 0, 0, 0, 1, 0⟩, call_stack := [], n_taint_query := 0, taint_query := [] }

deriving instance DecidableEq for Except

/-- Host of the sentinel query: every guest-virtual page is mapped 4096 bytes
higher in physical memory; guest-virtual bytes below 8192 are zero, all others
are 65. -/
def sentinel_host : Host :=
  { zero_len_host with
    panda_virt_to_phys := fun va => va + 4096,
    panda_virtual_memory_rw := fun a => if a < 8192 then some 0 else some 65 }

/-- A query request with the sentinel length for the buffer at 4096. -/
def sentinel_request : PandaHypercallStruct :=
  { zero_len_request with buf := 4096, len := 4294967295 }

/-- Engine with taint enabled; the physical byte 8192 (guest-virtual 4096)
carries label 5. -/
def sentinel_engine : Engine :=
  { Engine.initial with
    taintEnabled := true
    shadow := some { ShadowState.fresh with ram := [(8192, [5])] } }

/-- Register numbering of the x86 target of QEMU: `R_EAX = 0`, `R_ECX = 1`,
`R_EBX = 3`, `R_EDI = 7`. -/
def qemu_regs : RegIndex := { R_EAX := 0, R_EBX := 3, R_ECX := 1, R_EDI := 7 }

/-- Registers of a label trap: action code in EAX, buffer start in EBX, length
in ECX, label in EDI (QEMU numbering). -/
def label_trap (code buf len label : Nat) : CPUState :=
  ⟨fun r => if r = 0 then code else if r = 3 then buf else if r = 1 then len
    else if r = 7 then label else 0⟩

/-- A query request for the 4 bytes at 4096. -/
def four_byte_query : PandaHypercallStruct := { zero_len_request with buf := 4096, len := 4 }

/-- Engine with taint enabled and nothing labelled yet. -/
def enabled_engine : Engine :=
  { Engine.initial with taintEnabled := true, shadow := some ShadowState.fresh }

/-- Registers of an ARM trap: the command in `r0`, all other registers 0. -/
def arm_trap (r0 : Nat) : CPUState := ⟨fun r => if r = 0 then r0 else 0⟩

/-- A request structure with the given magic and action, for the 4 bytes at 4096. -/
def request_with (magic action : Nat) : PandaHypercallStruct :=
  { zero_len_request with magic := magic, action := action, len := 4 }

/-- Host whose guest memory holds `request_with magic action` at every address;
guest-virtual addresses translate to themselves. -/
def request_host (magic action : Nat) : Host :=
  { zero_len_host with read_phs := fun _ => request_with magic action }

/-- Registers of a LAVA trap on x86: `EAX` points at the request structure. -/
def lava_trap (ptr : Nat) : CPUState := ⟨fun r => if r = 0 then ptr else 0⟩

/-- Engine with taint enabled and the 4 bytes at 4096 labelled 5. -/
def labelled_engine : Engine :=
  { Engine.initial with
    taintEnabled := true
    shadow := some { ShadowState.fresh with
      ram := [(4096, [5]), (4097, [5]), (4098, [5]), (4099, [5])] } }

/-- First offset at or after `o`, among the next `k`, at which the sentinel
scan sees a terminator; `o + k` when there is none. -/
def first_terminator (h : Host) (phs : PandaHypercallStruct) : Nat → Nat → Nat
  | 0, o => o
  | k + 1, o => if terminator_at h phs o then o else first_terminator h phs k (o + 1)

/-- The engine after the teardown of `after_block_exec` (lines 411-415). -/
def teardown (s : Engine) : Engine :=
  ({ s with taintJustDisabled := false, execute_llvm := 0, generate_llvm := 0 }).call
    [HostCall.panda_do_flush_tb, HostCall.panda_disable_memcb]

/-- Is the operation `after_block_exec`. -/
def Op.is_after_block_exec : Op → Bool
  | Op.after_block_exec => true
  | _ => false

/-- Is the operation `uninit_plugin`. -/
def Op.is_uninit_plugin : Op → Bool
  | Op.uninit_plugin => true
  | _ => false

/-- What an operation other than `after_block_exec` leaves alone: the disable
marker, and the host is not asked to flush translations; unless the operation
is plugin unload (`u`), instrumented execution is not switched off either. -/
def Frame (u : Bool) (s s1 : Engine) : Prop :=
  s1.taintJustDisabled = s.taintJustDisabled ∧
  ∃ cs, s1.host_calls = s.host_calls ++ cs ∧ HostCall.panda_do_flush_tb ∉ cs ∧
    (u = false → HostCall.panda_disable_llvm ∉ cs ∧
      (s.execute_llvm ≠ 0 → s1.execute_llvm ≠ 0) ∧ (s.generate_llvm ≠ 0 → s1.generate_llvm ≠ 0))

/-- An engine on which a disable has been requested while instrumented
execution is on. -/
def disable_pending_engine : Engine :=
  { enabled_engine with taintJustDisabled := true, execute_llvm := 1, generate_llvm := 1 }

/-- The length the scan reports for a request whose length is not 0: the
explicit length, or for the sentinel the offset at which the scan stops. -/
def scanned_len (h : Host) (phs : PandaHypercallStruct) : Nat :=
  if phs.len = U32 - 1 then first_terminator h phs QUERY_HYPERCALL_MAX_LEN 0 else phs.len

/-- Offset `o` of the buffer resolves to a physical address (the `hwaddr` the
host returns, not yet narrowed) whose label-set is non-empty. -/
def resolves_tainted (h : Host) (sh : ShadowState) (phs : PandaHypercallStruct) (o : Nat) :
    Prop :=
  h.panda_virt_to_phys ((phs.buf + o) % U32) ≠ U64 - 1 ∧
  sh.ram.query (h.panda_virt_to_phys ((phs.buf + o) % U32)) ≠ []

/-- The region of `shadow` a store reference names; `none` for a store that is
not one of the five. -/
def ShadowState.region (sh : ShadowState) : ShadRef → Option FastShad
  | ShadRef.llv => some sh.llv
  | ShadRef.ram => some sh.ram
  | ShadRef.grv => some sh.grv
  | ShadRef.gsv => some sh.gsv
  | ShadRef.ret => some sh.ret
  | ShadRef.other _ => none

/-- An address whose offset is stored in a field of `W` values. -/
def Addr.narrow_off (W : Nat) (a : Addr) : Addr := { a with off := a.off % W }

/-! # Theorems -/

/-! ## The scan loop of `taint_query_hypercall` -/

/-- One iteration of the scan loop over a live shadow memory. -/
theorem scan_loop_succ (h : Host) (sh : ShadowState) (phs : PandaHypercallStruct) (b : Bool)
    (fuel o nt : Nat) :
    scan_loop h (some sh) phs b (fuel + 1) o nt =
      if (b && terminator_at h phs o) = true then .ok ⟨o, nt, []⟩
      else if exits_after phs b ((o + 1) % U32) = true then
        .ok ⟨(o + 1) % U32, if tainted_at h sh phs o then (nt + 1) % U32 else nt, [o]⟩
      else
        (scan_loop h (some sh) phs b fuel ((o + 1) % U32)
          (if tainted_at h sh phs o then (nt + 1) % U32 else nt)).map
          (fun r => { r with examined := o :: r.examined }) := by
  rw [scan_loop]
  simp only [terminator_at, tainted_at, exits_after, taint2_query]
  by_cases hb : b = true
  · subst hb
    simp only [Bool.true_and, Bool.not_true, Bool.false_and, Bool.false_or]
    split
    · rfl
    · by_cases hpa : h.panda_virt_to_phys ((phs.buf + o) % U32) % U32 = U32 - 1
      · simp [hpa, bind, Except.bind, pure, Except.pure, Except.map]
      · by_cases hq : (sh.labels h (make_maddr (h.panda_virt_to_phys ((phs.buf + o) % U32) % U32))).length = 0
        · simp [hpa, hq, bind, Except.bind, pure, Except.pure, Except.map]
        · simp [hpa, hq, bind, Except.bind, pure, Except.pure, Except.map]
  · simp only [Bool.not_eq_true] at hb
    subst hb
    simp only [Bool.false_and, Bool.not_false, Bool.true_and, Bool.or_false]
    by_cases hpa : h.panda_virt_to_phys ((phs.buf + o) % U32) % U32 = U32 - 1
    · simp [hpa, bind, Except.bind, pure, Except.pure, Except.map]
    · by_cases hq : (sh.labels h (make_maddr (h.panda_virt_to_phys ((phs.buf + o) % U32) % U32))).length = 0
      · simp [hpa, hq, bind, Except.bind, pure, Except.pure, Except.map]
      · simp [hpa, hq, bind, Except.bind, pure, Except.pure, Except.map]

/-- Counting from `o` splits off the offset `o`. -/
theorem count_tainted_succ (h : Host) (sh : ShadowState) (phs : PandaHypercallStruct) (o k : Nat) :
    count_tainted h sh phs o (k + 1) =
      (if tainted_at h sh phs o then 1 else 0) + count_tainted h sh phs (o + 1) k := by
  unfold count_tainted
  rw [List.range'_succ, List.filter_cons]
  split <;> simp; omega

/-- At most `k` of `k` offsets are tainted. -/
theorem count_tainted_le (h : Host) (sh : ShadowState) (phs : PandaHypercallStruct) (o k : Nat) :
    count_tainted h sh phs o k ≤ k := by
  unfold count_tainted
  calc ((List.range' o k).filter (tainted_at h sh phs)).length
      ≤ (List.range' o k).length := List.length_filter_le _ _
    _ = k := List.length_range' _ _ _

/-- The count over `[0, n)` is non-zero exactly when some offset below `n` is
tainted. -/
theorem count_tainted_ne_zero_iff (h : Host) (sh : ShadowState) (phs : PandaHypercallStruct)
    (n : Nat) :
    count_tainted h sh phs 0 n ≠ 0 ↔ ∃ o, o < n ∧ tainted_at h sh phs o = true := by
  unfold count_tainted
  rw [Nat.ne_zero_iff_zero_lt, List.length_pos_iff_exists_mem]
  constructor
  · rintro ⟨o, ho⟩
    rw [List.mem_filter, List.mem_range'_1] at ho
    exact ⟨o, by omega, ho.2⟩
  · rintro ⟨o, ho, ht⟩
    exact ⟨o, by rw [List.mem_filter, List.mem_range'_1]; exact ⟨by omega, ht⟩⟩

/-- The scan loop runs `k` full iterations from `o` and leaves by an
end-of-iteration test at the end of the `k`-th. -/
theorem scan_loop_run (h : Host) (sh : ShadowState) (phs : PandaHypercallStruct) (b : Bool) :
    ∀ (k fuel o nt : Nat), 1 ≤ k → k ≤ fuel → o + k ≤ U32 → nt < U32 →
      (∀ j, j < k → b = true → terminator_at h phs (o + j) = false) →
      (∀ j, 1 ≤ j → j < k → exits_after phs b (o + j) = false) →
      exits_after phs b ((o + k) % U32) = true →
      scan_loop h (some sh) phs b fuel o nt =
        .ok ⟨(o + k) % U32, (nt + count_tainted h sh phs o k) % U32, List.range' o k⟩ := by
  intro k
  induction k with
  | zero => intro fuel o nt hk; omega
  | succ k ih =>
    intro fuel o nt _ hfuel hbound hnt hterm hexit hlast
    obtain ⟨f, rfl⟩ : ∃ f, fuel = f + 1 := ⟨fuel - 1, by omega⟩
    rw [scan_loop_succ]
    have h0 : (b && terminator_at h phs o) = false := by
      cases b with
      | false => rfl
      | true => simpa using hterm 0 (by omega) rfl
    rw [if_neg (by simp [h0])]
    have hnt1 : (if tainted_at h sh phs o = true then (nt + 1) % U32 else nt) < U32 := by
      split
      · exact Nat.mod_lt _ (by unfold U32; omega)
      · exact hnt
    have hcnt : ((if tainted_at h sh phs o = true then (nt + 1) % U32 else nt) +
        count_tainted h sh phs (o + 1) k) % U32 =
        (nt + count_tainted h sh phs o (k + 1)) % U32 := by
      rw [count_tainted_succ]
      split
      · simp only [U32]; omega
      · simp only [U32]; omega
    by_cases hk0 : k = 0
    · subst hk0
      rw [if_pos (by simpa using hlast)]
      rw [← hcnt]
      simp [count_tainted, Nat.mod_eq_of_lt hnt1]
    · have ho1 : (o + 1) % U32 = o + 1 := Nat.mod_eq_of_lt (by omega)
      rw [ho1, if_neg (by simpa using hexit 1 (by omega) (by omega))]
      rw [ih f (o + 1) _ (by omega) (by omega) (by omega) hnt1
        (fun j hj hb => by have := hterm (j + 1) (by omega) hb; rwa [show o + (j + 1) = o + 1 + j by omega] at this)
        (fun j hj1 hj => by have := hexit (j + 1) (by omega) (by omega); rwa [show o + (j + 1) = o + 1 + j by omega] at this)
        (by rwa [show o + 1 + k = o + (k + 1) by omega])]
      simp only [Except.map]
      rw [hcnt, show o + 1 + k = o + (k + 1) by omega, List.range'_succ]

/-- An explicit length `1 ≤ L < 2^32 - 1`: the scan examines offsets
`0 .. L-1` once each and reports `L`. -/
theorem scan_explicit_pos (h : Host) (sh : ShadowState) (phs : PandaHypercallStruct)
    (hL1 : 1 ≤ phs.len) (hL : phs.len < U32 - 1) :
    scan_loop h (some sh) phs (decide (phs.len = U32 - 1)) U32 0 0 =
      .ok ⟨phs.len, count_tainted h sh phs 0 phs.len, List.range' 0 phs.len⟩ := by
  have hb : decide (phs.len = U32 - 1) = false := by simp; omega
  have hU : (0 : Nat) < U32 := by unfold U32; omega
  have hrun := scan_loop_run h sh phs false phs.len U32 0 0 hL1 (by omega) (by omega) hU
    (fun j _ hf => by simp at hf)
    (fun j hj1 hj => by simp [exits_after]; omega)
    (by simp [exits_after, Nat.mod_eq_of_lt (show phs.len < U32 by omega)])
  rw [hb, hrun]
  have hc := count_tainted_le h sh phs 0 phs.len
  simp [Nat.mod_eq_of_lt (show phs.len < U32 by omega),
    Nat.mod_eq_of_lt (show count_tainted h sh phs 0 phs.len < U32 by omega)]

/-- The explicit length `0`: the end-of-iteration test `offset == phs.len`
first succeeds when `offset` has wrapped, after `2^32` iterations. -/
theorem scan_explicit_zero (h : Host) (sh : ShadowState) (phs : PandaHypercallStruct)
    (hL : phs.len = 0) :
    scan_loop h (some sh) phs (decide (phs.len = U32 - 1)) U32 0 0 =
      .ok ⟨0, count_tainted h sh phs 0 U32 % U32, List.range' 0 U32⟩ := by
  have hb : decide (phs.len = U32 - 1) = false := by simp [hL, U32]
  have hU : (0 : Nat) < U32 := by unfold U32; omega
  have hrun := scan_loop_run h sh phs false U32 U32 0 0 (by omega) (by omega) (by omega) hU
    (fun j _ hf => by simp at hf)
    (fun j hj1 hj => by simp [exits_after, hL]; omega)
    (by simp [exits_after, hL])
  rw [hb, hrun]
  simp

/-- The offset `first_terminator` returns lies in `[o, o + k]`. -/
theorem first_terminator_bounds (h : Host) (phs : PandaHypercallStruct) :
    ∀ (k o : Nat), o ≤ first_terminator h phs k o ∧ first_terminator h phs k o ≤ o + k := by
  intro k
  induction k with
  | zero => intro o; simp [first_terminator]
  | succ k ih =>
    intro o
    rw [first_terminator]
    split
    · omega
    · have := ih (o + 1); omega

/-- The sentinel scan from offset `o`, with `k` offsets left before the bound
32, stops at `first_terminator`. -/
theorem scan_sentinel_from (h : Host) (sh : ShadowState) (phs : PandaHypercallStruct) :
    ∀ (k o nt fuel : Nat), 1 ≤ k → o + k = QUERY_HYPERCALL_MAX_LEN → k ≤ fuel → nt < U32 →
      scan_loop h (some sh) phs true fuel o nt =
        .ok ⟨first_terminator h phs k o,
             (nt + count_tainted h sh phs o (first_terminator h phs k o - o)) % U32,
             List.range' o (first_terminator h phs k o - o)⟩ := by
  intro k
  induction k with
  | zero => intro o nt fuel hk; omega
  | succ k ih =>
    intro o nt fuel _ hok hfuel hnt
    obtain ⟨f, rfl⟩ : ∃ f, fuel = f + 1 := ⟨fuel - 1, by omega⟩
    have hQ : QUERY_HYPERCALL_MAX_LEN = 32 := rfl
    rw [scan_loop_succ, first_terminator]
    by_cases ht : terminator_at h phs o = true
    · rw [if_pos (by simpa using ht), if_pos ht]
      simp [count_tainted, Nat.mod_eq_of_lt hnt]
    · rw [if_neg (by simpa using ht), if_neg ht]
      have ho1 : (o + 1) % U32 = o + 1 := Nat.mod_eq_of_lt (by simp only [U32]; omega)
      have hnt1 : (if tainted_at h sh phs o = true then (nt + 1) % U32 else nt) < U32 := by
        split
        · exact Nat.mod_lt _ (by unfold U32; omega)
        · exact hnt
      have hb := first_terminator_bounds h phs k (o + 1)
      obtain ⟨d, hd⟩ : ∃ d, first_terminator h phs k (o + 1) - o = d + 1 :=
        ⟨first_terminator h phs k (o + 1) - o - 1, by omega⟩
      have hd1 : first_terminator h phs k (o + 1) - (o + 1) = d := by omega
      have hcnt : ((if tainted_at h sh phs o = true then (nt + 1) % U32 else nt) +
          count_tainted h sh phs (o + 1) d) % U32 =
          (nt + count_tainted h sh phs o (d + 1)) % U32 := by
        rw [count_tainted_succ]
        split
        · simp only [U32]; omega
        · simp only [U32]; omega
      rw [ho1, hd]
      by_cases hk0 : k = 0
      · subst hk0
        have hd0 : d = 0 := by simp [first_terminator] at hd; omega
        subst hd0
        rw [if_pos (by simp [exits_after]; omega)]
        rw [← hcnt]
        simp [first_terminator, count_tainted, Nat.mod_eq_of_lt hnt1]
      · rw [if_neg (by simp [exits_after]; omega)]
        rw [ih (o + 1) _ f (by omega) (by omega) (by omega) hnt1, hd1]
        simp only [Except.map]
        rw [hcnt, List.range'_succ]

/-- The scan of a request with the sentinel length stops at the first offset
below 32 whose terminator test succeeds, or at 32. -/
theorem scan_sentinel (h : Host) (sh : ShadowState) (phs : PandaHypercallStruct)
    (hL : phs.len = U32 - 1) :
    scan_loop h (some sh) phs (decide (phs.len = U32 - 1)) U32 0 0 =
      .ok ⟨first_terminator h phs QUERY_HYPERCALL_MAX_LEN 0,
           count_tainted h sh phs 0 (first_terminator h phs QUERY_HYPERCALL_MAX_LEN 0),
           List.range' 0 (first_terminator h phs QUERY_HYPERCALL_MAX_LEN 0)⟩ := by
  have hb : decide (phs.len = U32 - 1) = true := by simp [hL]
  rw [hb, scan_sentinel_from h sh phs QUERY_HYPERCALL_MAX_LEN 0 0 U32 (by decide) (by simp)
    (by decide) (by decide)]
  have h1 := first_terminator_bounds h phs QUERY_HYPERCALL_MAX_LEN 0
  have h2 := count_tainted_le h sh phs 0 (first_terminator h phs QUERY_HYPERCALL_MAX_LEN 0)
  have h3 : count_tainted h sh phs 0 (first_terminator h phs QUERY_HYPERCALL_MAX_LEN 0) < U32 := by
    simp only [QUERY_HYPERCALL_MAX_LEN, U32] at *; omega
  simp [Nat.mod_eq_of_lt h3]

/-- For a length other than 0 the scan reports `scanned_len`, counts the
tainted offsets below it and examines exactly those offsets. -/
theorem scan_nonzero (h : Host) (sh : ShadowState) (phs : PandaHypercallStruct)
    (hlen : phs.len < U32) (hpos : phs.len ≠ 0) :
    scan_loop h (some sh) phs (decide (phs.len = U32 - 1)) U32 0 0 =
      .ok ⟨scanned_len h phs, count_tainted h sh phs 0 (scanned_len h phs),
           List.range' 0 (scanned_len h phs)⟩ := by
  unfold scanned_len
  by_cases h1 : phs.len = U32 - 1
  · rw [if_pos h1]; exact scan_sentinel h sh phs h1
  · rw [if_neg h1]; exact scan_explicit_pos h sh phs (by omega) (by omega)

/-- Over a live shadow memory the entry loop yields one entry per tainted
offset, in increasing order. -/
theorem collect_queries_eq (h : Host) (sh : ShadowState) (phs : PandaHypercallStruct) :
    ∀ (k o : Nat), collect_queries h (some sh) phs k o = .ok (expected_entries h sh phs o k) := by
  intro k
  induction k with
  | zero => intro o; simp [collect_queries, expected_entries]
  | succ k ih =>
    intro o
    rw [collect_queries, ih]
    simp only [expected_entries, List.range'_succ, List.filter_cons, tainted_at, taint2_query,
      taint2_query_pandalog, pa_at]
    by_cases hpa : h.panda_virt_to_phys ((phs.buf + o) % U32) % U32 = U32 - 1
    · simp [hpa, bind, Except.bind, pure, Except.pure]
    · by_cases hq : (sh.labels h (make_maddr (h.panda_virt_to_phys ((phs.buf + o) % U32) % U32))).length = 0
      · simp [hpa, hq, bind, Except.bind, pure, Except.pure]
      · simp [hpa, hq, bind, Except.bind, pure, Except.pure]

/-- The snippet loop completes when it stays below index 32, stores
`snippet_byte` at each index it visits and leaves lower indices alone. -/
theorem snippet_loop_ok (h : Host) (phs : PandaHypercallStruct) :
    ∀ (k i : Nat) (data : Nat → Nat), i + k ≤ QUERY_HYPERCALL_MAX_LEN →
      ∃ data1, snippet_loop h phs k i data = .ok data1 ∧
        (∀ j, i ≤ j → j < i + k → data1 j = snippet_byte h phs j) ∧
        (∀ j, j < i → data1 j = data j) := by
  intro k
  induction k with
  | zero => intro i data _; exact ⟨data, rfl, fun j h1 h2 => by omega, fun _ _ => rfl⟩
  | succ k ih =>
    intro i data hb
    rw [snippet_loop, if_pos (by omega)]
    obtain ⟨d1, h1, h2, h3⟩ := ih (i + 1) _ (by omega)
    refine ⟨d1, h1, ?_, ?_⟩
    · intro j hij hj
      by_cases hji : j = i
      · subst hji
        rw [h3 j (by omega)]
        simp [snippet_byte]
      · exact h2 j (by omega) (by omega)
    · intro j hj
      rw [h3 j (by omega)]
      simp [Function.update, Nat.ne_of_lt hj]

/-- The array stores of the snippet loop stay inside the 32-element array
exactly when the loop is asked for at most 32 bytes from index 0. -/
theorem snippet_loop_data (h : Host) (phs : PandaHypercallStruct) (n : Nat) (data : Nat → Nat)
    (hn : n ≤ QUERY_HYPERCALL_MAX_LEN) :
    ∃ data1, snippet_loop h phs n 0 data = .ok data1 ∧
      (List.range n).map data1 = (List.range n).map (snippet_byte h phs) := by
  obtain ⟨d1, h1, h2, _⟩ := snippet_loop_ok h phs n 0 data (by omega)
  refine ⟨d1, h1, ?_⟩
  apply List.map_congr_left
  intro j hj
  exact h2 j (by omega) (by simpa using hj)

/-- With the guard of line 137 passed and the scan completed, the query
writes `query_record` when `num_tainted` is non-zero and nothing otherwise. -/
theorem taint_query_hypercall_of_scan (h : Host) (sh : ShadowState) (phs : PandaHypercallStruct)
    (s : Engine) (sc : Scan) (hlog : h.pandalog = true) (hen : s.taintEnabled = true)
    (hlab : 0 < h.taint2_num_labels_applied) (hsh : s.shadow = some sh)
    (hscan : scan_loop h (some sh) phs (decide (phs.len = U32 - 1)) U32 0 0 = .ok sc) :
    taint_query_hypercall h phs s =
      if sc.num_tainted ≠ 0 then
        .ok { s with pandalog_entries := s.pandalog_entries ++
          [LogEntry.taint_query_hypercall (query_record h sh phs sc)] }
      else .ok s := by
  unfold taint_query_hypercall
  rw [if_pos (by simp [hlog, hen, hlab]), hsh]
  dsimp only
  rw [hscan]
  simp only [bind, Except.bind]
  by_cases hnt : sc.num_tainted = 0
  · simp [hnt, pure, Except.pure]
  · have hn : (if QUERY_HYPERCALL_MAX_LEN < sc.offset then QUERY_HYPERCALL_MAX_LEN else sc.offset)
        = min sc.offset QUERY_HYPERCALL_MAX_LEN := by
      split <;> omega
    rw [if_pos hnt, if_pos hnt, hn]
    obtain ⟨d1, h1, h2⟩ := snippet_loop_data h phs (min sc.offset QUERY_HYPERCALL_MAX_LEN)
      h.stale_array (Nat.min_le_right _ _)
    rw [h1, collect_queries_eq]
    simp only [pure, Except.pure, query_record, h2]

/-- Whatever `taint_query_hypercall` returns, it returns the engine unchanged
or with one record appended, built from the scan and the snippet array. -/
theorem taint_query_hypercall_inv (h : Host) (phs : PandaHypercallStruct) (s s1 : Engine)
    (hres : taint_query_hypercall h phs s = .ok s1) :
    s1 = s ∨ ∃ (sc : Scan) (data : Nat → Nat) (tq : List TaintQuery),
      snippet_loop h phs (min sc.offset QUERY_HYPERCALL_MAX_LEN) 0 h.stale_array = .ok data ∧
      s1 = { s with pandalog_entries := s.pandalog_entries ++ [LogEntry.taint_query_hypercall
        { buf := phs.buf, len := sc.offset, num_tainted := sc.num_tainted,
          n_data := min sc.offset QUERY_HYPERCALL_MAX_LEN,
          data := (List.range (min sc.offset QUERY_HYPERCALL_MAX_LEN)).map data,
          src_info := pandalog_src_info_create phs, call_stack := h.callstack,
          n_taint_query := tq.length, taint_query := tq }] } := by
  unfold taint_query_hypercall at hres
  split at hres
  · dsimp only at hres
    cases hsc : scan_loop h s.shadow phs (decide (phs.len = U32 - 1)) U32 0 0 with
    | error e => rw [hsc] at hres; simp [bind, Except.bind] at hres
    | ok sc =>
      rw [hsc] at hres
      simp only [bind, Except.bind] at hres
      have hn : (if QUERY_HYPERCALL_MAX_LEN < sc.offset then QUERY_HYPERCALL_MAX_LEN
          else sc.offset) = min sc.offset QUERY_HYPERCALL_MAX_LEN := by
        split <;> omega
      rw [hn] at hres
      split at hres
      · cases hd : snippet_loop h phs (min sc.offset QUERY_HYPERCALL_MAX_LEN) 0 h.stale_array with
        | error e => rw [hd] at hres; simp at hres
        | ok data =>
          rw [hd] at hres
          cases hq : collect_queries h s.shadow phs sc.offset 0 with
          | error e => rw [hq] at hres; simp at hres
          | ok tq =>
            rw [hq] at hres
            simp only [pure, Except.pure, Except.ok.injEq] at hres
            exact Or.inr ⟨sc, data, tq, hd, hres.symm⟩
      · simp only [pure, Except.pure, Except.ok.injEq] at hres
        exact Or.inl hres.symm
  · simp only [pure, Except.pure, Except.ok.injEq] at hres
    exact Or.inl hres.symm

/-- In the zero-length example only the offset that wraps onto physical byte
64 is tainted. -/
theorem zero_len_tainted_at (o : Nat) (ho : o < U32) :
    tainted_at zero_len_host zero_len_shadow zero_len_request o = decide (o = U32 - 4032) := by
  have h1 : (4096 + o) % U32 % U32 = (4096 + o) % U32 := Nat.mod_mod _ _
  simp only [tainted_at, zero_len_host, zero_len_request, zero_len_shadow, ShadowState.labels,
    make_maddr, FastShad.query, ShadowState.fresh, h1]
  by_cases h64 : (4096 + o) % U32 = 64
  · have : o = U32 - 4032 := by simp only [U32] at *; omega
    simp [h64, this, U32, List.lookup]
  · have hne : ¬ o = U32 - 4032 := by simp only [U32] at *; omega
    have hb : ((4096 + o) % U32 == 64) = false := by simpa using h64
    simp [hne, List.lookup, hb]

/-- In the zero-length example exactly one of the `2^32` offsets is tainted. -/
theorem zero_len_count : count_tainted zero_len_host zero_len_shadow zero_len_request 0 U32 = 1 := by
  unfold count_tainted
  have hsplit : List.range' 0 U32 =
      List.range' 0 (U32 - 4032) ++ (U32 - 4032) :: List.range' (U32 - 4031) 4031 := by
    have h1 : U32 = 4032 + (U32 - 4032) := by simp [U32]
    have h2 : List.range' (0 + 1 * (U32 - 4032)) 4032 =
        (U32 - 4032) :: List.range' (U32 - 4031) 4031 := by
      simp only [U32]; rfl
    conv_lhs => rw [h1]
    rw [← List.range'_append 0 (U32 - 4032) 4032 1, h2]
  rw [hsplit, List.filter_append, List.filter_cons]
  have hA : (List.range' 0 (U32 - 4032)).filter
      (tainted_at zero_len_host zero_len_shadow zero_len_request) = [] := by
    rw [List.filter_eq_nil_iff]
    intro a ha
    rw [List.mem_range'_1] at ha
    rw [zero_len_tainted_at a (by simp only [U32] at *; omega)]
    simp only [U32] at *
    simp; omega
  have hB : (List.range' (U32 - 4031) 4031).filter
      (tainted_at zero_len_host zero_len_shadow zero_len_request) = [] := by
    rw [List.filter_eq_nil_iff]
    intro a ha
    rw [List.mem_range'_1] at ha
    rw [zero_len_tainted_at a (by simp only [U32] at *; omega)]
    simp only [U32] at *
    simp; omega
  rw [hA, hB, zero_len_tainted_at _ (by simp [U32])]
  simp

/-- The zero-length query writes `zero_len_record`. -/
theorem zero_len_query :
    taint_query_hypercall zero_len_host zero_len_request zero_len_engine =
      .ok { zero_len_engine with
        pandalog_entries := [LogEntry.taint_query_hypercall zero_len_record] } := by
  have hscan := scan_explicit_zero zero_len_host zero_len_shadow zero_len_request rfl
  rw [zero_len_count] at hscan
  rw [taint_query_hypercall_of_scan zero_len_host zero_len_shadow zero_len_request zero_len_engine
    _ rfl rfl (by decide) rfl hscan]
  rfl

/-- For a length other than 0, with the log active and taint enabled over a
live shadow memory: if `taint2_num_labels_applied()` is 0 the query writes
nothing; otherwise it writes exactly one record when some offset below the
scanned length is tainted as the code looks it up (`tainted_at`: the
translated address narrowed to 32 bits), and nothing when none is. -/
theorem query_record_iff_tainted (h : Host) (phs : PandaHypercallStruct) (s : Engine)
    (sh : ShadowState) (hlog : h.pandalog = true) (hen : s.taintEnabled = true)
    (hsh : s.shadow = some sh) (hlen : phs.len < U32) (hpos : phs.len ≠ 0) :
    (h.taint2_num_labels_applied = 0 → taint_query_hypercall h phs s = .ok s) ∧
    (0 < h.taint2_num_labels_applied →
      ((∃ o, o < scanned_len h phs ∧ tainted_at h sh phs o = true) →
        ∃ r, taint_query_hypercall h phs s = .ok { s with pandalog_entries :=
            s.pandalog_entries ++ [LogEntry.taint_query_hypercall r] } ∧
          r.len = scanned_len h phs ∧
          r.num_tainted = count_tainted h sh phs 0 (scanned_len h phs) ∧
          r.taint_query = expected_entries h sh phs 0 (scanned_len h phs)) ∧
      ((¬ ∃ o, o < scanned_len h phs ∧ tainted_at h sh phs o = true) →
        taint_query_hypercall h phs s = .ok s)) := by
  refine ⟨?_, ?_⟩
  · intro h0
    simp [taint_query_hypercall, h0, pure, Except.pure]
  · intro hlab
    have hq := taint_query_hypercall_of_scan h sh phs s _ hlog hen hlab hsh
      (scan_nonzero h sh phs hlen hpos)
    dsimp only at hq
    refine ⟨?_, ?_⟩
    · intro hex
      rw [hq, if_pos ((count_tainted_ne_zero_iff h sh phs _).2 hex)]
      exact ⟨_, rfl, rfl, rfl, rfl⟩
    · intro hno
      rw [hq, if_neg (by rw [count_tainted_ne_zero_iff]; exact hno)]

/-- When physical addresses fit in 32 bits, the code's lookup of an offset
agrees with resolving it to a physical address with a non-empty label-set. -/
theorem tainted_at_iff_resolves (h : Host) (sh : ShadowState) (phs : PandaHypercallStruct)
    (o : Nat)
    (hphys : h.panda_virt_to_phys ((phs.buf + o) % U32) = U64 - 1 ∨
      h.panda_virt_to_phys ((phs.buf + o) % U32) < U32 - 1) :
    tainted_at h sh phs o = true ↔ resolves_tainted h sh phs o := by
  unfold tainted_at resolves_tainted
  rcases hphys with hp | hp
  · rw [hp]
    simp [U64, U32]
  · have h1 : h.panda_virt_to_phys ((phs.buf + o) % U32) % U32 =
        h.panda_virt_to_phys ((phs.buf + o) % U32) := Nat.mod_eq_of_lt (by omega)
    have h2 : h.panda_virt_to_phys ((phs.buf + o) % U32) ≠ U64 - 1 := by
      simp only [U64, U32] at *; omega
    have h3 : h.panda_virt_to_phys ((phs.buf + o) % U32) ≠ U32 - 1 := by omega
    rw [h1]
    simp [h2, h3, ShadowState.labels, make_maddr]

/-- Outside the explicit length 0 the query does what C1 says. On a host whose
physical addresses fit in 32 bits and whose label counter is positive whenever
some physical byte is labelled, a query of non-zero length, serviced with the
log active and taint enabled over a live shadow memory, writes exactly one
record if some offset below the scanned length resolves to a physical address
with a non-empty label-set, and no record otherwise. -/
theorem query_record_iff_resolves_tainted (h : Host) (phs : PandaHypercallStruct) (s : Engine)
    (sh : ShadowState) (hlog : h.pandalog = true) (hen : s.taintEnabled = true)
    (hsh : s.shadow = some sh) (hlen : phs.len < U32) (hpos : phs.len ≠ 0)
    (hctr : (∃ pa, sh.ram.query pa ≠ []) → 0 < h.taint2_num_labels_applied)
    (hphys : ∀ va, h.panda_virt_to_phys va = U64 - 1 ∨ h.panda_virt_to_phys va < U32 - 1) :
    ((∃ o, o < scanned_len h phs ∧ resolves_tainted h sh phs o) →
      ∃ r, taint_query_hypercall h phs s = .ok { s with pandalog_entries :=
          s.pandalog_entries ++ [LogEntry.taint_query_hypercall r] } ∧
        r.len = scanned_len h phs) ∧
    ((¬ ∃ o, o < scanned_len h phs ∧ resolves_tainted h sh phs o) →
      taint_query_hypercall h phs s = .ok s) := by
  have hiff : (∃ o, o < scanned_len h phs ∧ tainted_at h sh phs o = true) ↔
      ∃ o, o < scanned_len h phs ∧ resolves_tainted h sh phs o := by
    constructor
    · rintro ⟨o, ho, ht⟩
      exact ⟨o, ho, (tainted_at_iff_resolves h sh phs o (hphys _)).1 ht⟩
    · rintro ⟨o, ho, ht⟩
      exact ⟨o, ho, (tainted_at_iff_resolves h sh phs o (hphys _)).2 ht⟩
  have hmain := query_record_iff_tainted h phs s sh hlog hen hsh hlen hpos
  refine ⟨?_, ?_⟩
  · rintro ⟨o, ho, ht⟩
    have hlab : 0 < h.taint2_num_labels_applied := hctr ⟨_, ht.2⟩
    obtain ⟨r, hr, hl, _⟩ := (hmain.2 hlab).1 (hiff.2 ⟨o, ho, ht⟩)
    exact ⟨r, hr, hl⟩
  · intro hno
    by_cases hlab : 0 < h.taint2_num_labels_applied
    · exact (hmain.2 hlab).2 (fun hex => hno (hiff.1 hex))
    · exact hmain.1 (by omega)

/-- C1 (the code departs from it). A query request with explicit length 0,
serviced with taint enabled, the log active and a label applied, writes one
taint-query record although its extent `[0, len)` holds no offset at all,
hence no tainted byte: the scan wraps around the 32-bit offset space and
counts the labelled physical byte 64, far outside the buffer at 4096. -/
theorem zero_length_query_writes_record :
    zero_len_host.pandalog = true ∧ zero_len_engine.taintEnabled = true ∧
    0 < zero_len_host.taint2_num_labels_applied ∧
    zero_len_request.action = 11 ∧ zero_len_request.len = 0 ∧
    (¬ ∃ o, o < zero_len_request.len ∧
      resolves_tainted zero_len_host zero_len_shadow zero_len_request o) ∧
    ∃ r, taint_query_hypercall zero_len_host zero_len_request zero_len_engine =
      .ok { zero_len_engine with pandalog_entries :=
        zero_len_engine.pandalog_entries ++ [LogEntry.taint_query_hypercall r] } ∧
      r.len = 0 := by
  refine ⟨rfl, rfl, by decide, rfl, rfl, ?_, zero_len_record, ?_, rfl⟩
  · rintro ⟨o, ho, _⟩
    simp [zero_len_request] at ho
  · rw [zero_len_query]
    rfl

/-! ## C2: the counts of a record -/

/-- C2 (the code departs from it). The record written for the zero-length
request reports scanned length 0 and `num_tainted = 1`, while the number of
tainted offsets in `[0, 0)` is 0 and the per-offset entry list is empty, so
`n_taint_query = 0` differs from `num_tainted`. -/
theorem zero_length_record_miscounts :
    ∃ s1 r, taint_query_hypercall zero_len_host zero_len_request zero_len_engine = .ok s1 ∧
      s1.pandalog_entries = [LogEntry.taint_query_hypercall r] ∧
      r.len = 0 ∧ r.num_tainted = 1 ∧
      ((List.range r.len).filter
        (tainted_at zero_len_host zero_len_shadow zero_len_request)).length = 0 ∧
      r.taint_query = [] ∧ r.n_taint_query = 0 ∧ r.n_taint_query ≠ r.num_tainted :=
  ⟨_, zero_len_record, zero_len_query, rfl, rfl, rfl, rfl, rfl, rfl, by decide⟩

/-! ## C3: the sentinel scan -/

/-- C3 (the code departs from it). The buffer of the sentinel request starts
with a zero byte, so the first zero byte is at offset `k = 0` and the claim
gives scanned length `min(0, 32) = 0`; the code reads the terminator at the
translated address `pa` instead of the guest-virtual `va`, sees the non-zero
bytes at guest-virtual 8192.., and scans `32` offsets. -/
theorem sentinel_scan_reads_translated_address :
    sentinel_request.len = U32 - 1 ∧
    sentinel_host.panda_virtual_memory_rw sentinel_request.buf = some 0 ∧
    scan_loop sentinel_host sentinel_engine.shadow sentinel_request
        (decide (sentinel_request.len = U32 - 1)) U32 0 0 = .ok ⟨32, 1, List.range 32⟩ ∧
    ∃ s1 r, taint_query_hypercall sentinel_host sentinel_request sentinel_engine = .ok s1 ∧
      s1.pandalog_entries = [LogEntry.taint_query_hypercall r] ∧ r.len = 32 := by
  refine ⟨by decide, by decide, by decide, ?_⟩
  have hscan : scan_loop sentinel_host (some { ShadowState.fresh with ram := [(8192, [5])] })
      sentinel_request (decide (sentinel_request.len = U32 - 1)) U32 0 0
      = .ok ⟨32, 1, List.range 32⟩ := by decide
  refine ⟨_, _, taint_query_hypercall_of_scan sentinel_host _ sentinel_request sentinel_engine _
    rfl rfl (by decide) rfl hscan, rfl, rfl⟩

/-! ## C4: label traps -/

/-- C4 (the code departs from it). On the x86 build the label branches test
the register index `R_EAX` instead of the register value `EAX`, so a trap with
action code 7 or 8 returns with the engine exactly as it was: no byte is
labelled. In the scenario (single label 5 on the 4 bytes at 4096, then a query
of the same bytes) the query writes no record, whereas after the single-label
routine itself the same query reports 4 tainted bytes, each with `{5}`. -/
theorem label_trap_labels_nothing (h : Host) (s : Engine) (buf len label : Nat) :
    guest_hypercall_callback (Target.I386 qemu_regs) h (label_trap 7 buf len label)
        { s with taintEnabled := true } = .ok (1, { s with taintEnabled := true }) ∧
    guest_hypercall_callback (Target.I386 qemu_regs) h (label_trap 8 buf len label)
        { s with taintEnabled := true } = .ok (1, { s with taintEnabled := true }) ∧
    (guest_hypercall_callback (Target.I386 qemu_regs) zero_len_host (label_trap 7 4096 4 5)
        enabled_engine).bind (fun r => taint_query_hypercall zero_len_host four_byte_query r.2)
      = .ok enabled_engine ∧
    ((taint2_add_taint_ram_single_label zero_len_host 4096 4 5 enabled_engine).bind
        (fun s1 => taint_query_hypercall zero_len_host four_byte_query s1)).map
        (fun s2 => s2.pandalog_entries.map (fun e => match e with
          | LogEntry.taint_query_hypercall r => (r.num_tainted, r.taint_query)
          | LogEntry.attack_point _ => (0, [])))
      = .ok [(4, [⟨0, [5]⟩, ⟨1, [5]⟩, ⟨2, [5]⟩, ⟨3, [5]⟩])] := by
  refine ⟨?_, ?_, by decide, by decide⟩
  · simp [guest_hypercall_callback, label_trap, qemu_regs, pure, Except.pure]
  · simp [guest_hypercall_callback, label_trap, qemu_regs, pure, Except.pure]

/-! ## C5: traps while taint is disabled -/

/-- C5 (fails as stated). On the ARM build a trap with `r0 = 7` arriving while
taint is disabled is not ignored: it enables taint and constructs the shadow
memory. -/
theorem arm_label_trap_enables_taint :
    Engine.initial.taintEnabled = false ∧ Engine.initial.shadow = none ∧
    ∃ s1, guest_hypercall_callback Target.ARM zero_len_host (arm_trap 7) Engine.initial
        = .ok (1, s1) ∧
      s1.taintEnabled = true ∧ s1.shadow = some ShadowState.fresh := by
  refine ⟨rfl, rfl, ?_⟩
  simp [guest_hypercall_callback, arm_trap, taint2_enable_taint, Engine.initial, Engine.print,
    Engine.call, panda_enable_llvm, zero_len_host, bind, Except.bind, pure, Except.pure]

/-- C5 (as amended). While `taintEnabled` is false: the x86 build (for every
register numbering) and the build for other targets return with the engine
exactly as it was; the ARM build does so unless `r0` is 7 or 8, in which case
it prints two lines and runs `taint2_enable_taint`, which either exits (module
verification failed) or leaves `taintEnabled` true over a fresh, unlabelled
shadow memory, with the disable marker and the event log untouched. -/
theorem disabled_trap_ignored_except_arm_label (h : Host) (cpu : CPUState) (s : Engine)
    (hdis : s.taintEnabled = false) :
    (∀ R, guest_hypercall_callback (Target.I386 R) h cpu s = .ok (1, s)) ∧
    guest_hypercall_callback Target.OTHER h cpu s = .ok (0, s) ∧
    (cpu.regs 0 ≠ 7 ∧ cpu.regs 0 ≠ 8 →
      guest_hypercall_callback Target.ARM h cpu s = .ok (1, s)) ∧
    (cpu.regs 0 = 7 ∨ cpu.regs 0 = 8 →
      guest_hypercall_callback Target.ARM h cpu s =
        (taint2_enable_taint h
          (s.print [Diag.label_detected h.rr_get_guest_instr_count, Diag.enabling_taint])).map
          (fun s1 => (1, s1)) ∧
      (h.verifyModule = true →
        guest_hypercall_callback Target.ARM h cpu s = .error (Abort.exit 1)) ∧
      (h.verifyModule = false →
        ∃ s1, guest_hypercall_callback Target.ARM h cpu s = .ok (1, s1) ∧
          s1.taintEnabled = true ∧ s1.shadow = some ShadowState.fresh ∧
          s1.taintJustDisabled = s.taintJustDisabled ∧
          s1.pandalog_entries = s.pandalog_entries)) := by
  refine ⟨?_, ?_, ?_, ?_⟩
  · intro R
    simp [guest_hypercall_callback, hdis, pure, Except.pure]
  · rfl
  · rintro ⟨h7, h8⟩
    by_cases h9 : cpu.regs 0 = 9
    · simp [guest_hypercall_callback, hdis, pure, Except.pure, h9]
    · simp [guest_hypercall_callback, hdis, pure, Except.pure, h7, h8, h9]
  · intro h78
    have hcall : guest_hypercall_callback Target.ARM h cpu s =
        (taint2_enable_taint h
          (s.print [Diag.label_detected h.rr_get_guest_instr_count, Diag.enabling_taint])).map
          (fun s1 => (1, s1)) := by
      simp only [guest_hypercall_callback, if_pos h78, hdis]
      cases taint2_enable_taint h
        (s.print [Diag.label_detected h.rr_get_guest_instr_count, Diag.enabling_taint]) <;> rfl
    refine ⟨hcall, ?_, ?_⟩
    · intro hv
      rw [hcall]
      simp [taint2_enable_taint, Engine.print, hdis, hv, Except.map]
    · intro hv
      rw [hcall]
      simp only [taint2_enable_taint, Engine.print, hdis, hv, Except.map, Engine.call]
      refine ⟨_, rfl, ?_, ?_, ?_, ?_⟩ <;>
        simp only [panda_enable_llvm] <;> split <;> split <;> rfl

/-- Witness of `disabled_trap_ignored_except_arm_label` at the initial engine. -/
theorem disabled_trap_ignored_except_arm_label_witness :
    Engine.initial.taintEnabled = false ∧
    guest_hypercall_callback (Target.I386 qemu_regs) zero_len_host (label_trap 7 4096 4 5)
      Engine.initial = .ok (1, Engine.initial) :=
  ⟨rfl, (disabled_trap_ignored_except_arm_label zero_len_host (label_trap 7 4096 4 5)
    Engine.initial rfl).1 qemu_regs⟩

/-! ## C6: malformed requests -/

/-- Every return of the x86 handler carries the value 1. -/
theorem i386_returns_one (R : RegIndex) (h : Host) (cpu : CPUState) (s s1 : Engine) (r : Nat)
    (hres : guest_hypercall_callback (Target.I386 R) h cpu s = .ok (r, s1)) : r = 1 := by
  simp only [guest_hypercall_callback] at hres
  repeat' split at hres
  all_goals first
    | (simp only [pure, Except.pure, Except.ok.injEq, Prod.mk.injEq] at hres; exact hres.1.symm)
    | (simp only [bind, Except.bind] at hres
       split at hres
       · simp at hres
       · simp only [pure, Except.pure, Except.ok.injEq, Prod.mk.injEq] at hres
         exact hres.1.symm)

/-- The labeling loop does not read request structures. -/
theorem add_taint_ram_read_phs (h : Host) (f : Nat → PandaHypercallStruct) (addr : Nat)
    (label : Nat → Nat) : ∀ (k i : Nat) (shadow : Option ShadowState),
      add_taint_ram { h with read_phs := f } addr label k i shadow =
        add_taint_ram h addr label k i shadow := by
  intro k
  induction k with
  | zero => intro i shadow; rfl
  | succ k ih =>
    intro i shadow
    rw [add_taint_ram, add_taint_ram]
    dsimp only
    split
    · exact ih _ _
    · cases taint2_label_ram shadow (h.panda_virt_to_phys ((addr + i) % U64)) (label i) with
      | error e => rfl
      | ok sh1 => exact ih _ _

/-- C6. On the x86 build (the build that decodes a request structure), a trap
whose request structure has a magic other than `0xabcd`, or the right magic
and an action other than 11 (query) and 12 (attack point) - the reserved 13
and 14 or any unknown code - returns 1 with every part of the engine except
the diagnostic output as it was: no record, same shadow memory, same lifecycle
flags. Every returning call of the handler returns 1. With a wrong magic, a
structure that differs in any other field gives the same outcome. -/
theorem malformed_request_ignored (R : RegIndex) (h : Host) (cpu : CPUState) (s : Engine)
    (hptr : (R.R_EAX ≠ 7 ∧ R.R_EAX ≠ 8) ∨ (cpu.regs R.R_EAX ≠ 7 ∧ cpu.regs R.R_EAX ≠ 8))
    (hbad : (h.read_phs (cpu.regs R.R_EAX)).magic ≠ 0xabcd ∨
      ((h.read_phs (cpu.regs R.R_EAX)).action ≠ 11 ∧
       (h.read_phs (cpu.regs R.R_EAX)).action ≠ 12)) :
    (∃ s1, guest_hypercall_callback (Target.I386 R) h cpu s = .ok (1, s1) ∧
      s1 = { s with stdout := s1.stdout }) ∧
    (∀ (h2 : Host) (cpu2 : CPUState) (s2 s3 : Engine) (r : Nat),
      guest_hypercall_callback (Target.I386 R) h2 cpu2 s2 = .ok (r, s3) → r = 1) ∧
    (∀ f : Nat → PandaHypercallStruct,
      (h.read_phs (cpu.regs R.R_EAX)).magic ≠ 0xabcd →
      (f (cpu.regs R.R_EAX)).magic = (h.read_phs (cpu.regs R.R_EAX)).magic →
      guest_hypercall_callback (Target.I386 R) { h with read_phs := f } cpu s =
        guest_hypercall_callback (Target.I386 R) h cpu s) := by
  refine ⟨?_, fun h2 cpu2 s2 s3 r hres => i386_returns_one R h2 cpu2 s2 s3 r hres, ?_⟩
  · simp only [guest_hypercall_callback]
    by_cases hen : s.taintEnabled = true
    · rw [if_pos hen]
      by_cases h78 : cpu.regs R.R_EAX = 7 ∨ cpu.regs R.R_EAX = 8
      · rw [if_pos h78]
        have hR : R.R_EAX ≠ 7 ∧ R.R_EAX ≠ 8 := by
          rcases hptr with hp | hp
          · exact hp
          · exact absurd h78 (by simp [hp.1, hp.2])
        rw [if_neg hR.1, if_neg hR.2]
        exact ⟨s, rfl, rfl⟩
      · rw [if_neg h78]
        split
        · exact ⟨_, rfl, rfl⟩
        · split
          · rcases hbad with hm | ⟨h11, h12⟩
            · rw [if_neg hm]
              exact ⟨_, rfl, rfl⟩
            · simp only [if_neg h11, if_neg h12]
              repeat' split
              all_goals exact ⟨_, rfl, rfl⟩
          · exact ⟨s, rfl, rfl⟩
    · rw [if_neg hen]
      exact ⟨s, rfl, rfl⟩
  · intro f hm hf
    simp only [guest_hypercall_callback]
    have hm2 : ¬ (f (cpu.regs R.R_EAX)).magic = 0xabcd := by rw [hf]; exact hm
    simp only [if_neg hm, if_neg hm2, hf, taint2_add_taint_ram_single_label,
      taint2_add_taint_ram_pos, add_taint_ram_read_phs]

/-- Witness of `malformed_request_ignored`: a request with magic `0x1234`
under the QEMU register numbering. -/
theorem malformed_request_ignored_witness :
    ∃ s1, guest_hypercall_callback (Target.I386 qemu_regs) (request_host 0x1234 11)
        (lava_trap 4096) labelled_engine = .ok (1, s1) ∧
      s1 = { labelled_engine with stdout := s1.stdout } :=
  (malformed_request_ignored qemu_regs (request_host 0x1234 11) (lava_trap 4096) labelled_engine
    (Or.inl (by decide)) (Or.inl (by decide))).1

/-! ## C7: the two-phase disable -/

/-- An engine with the same marker, host calls and execution flags keeps the
frame. -/
theorem Frame.of_same (u : Bool) (s s1 : Engine)
    (h1 : s1.taintJustDisabled = s.taintJustDisabled) (h2 : s1.host_calls = s.host_calls)
    (h3 : s1.execute_llvm = s.execute_llvm) (h4 : s1.generate_llvm = s.generate_llvm) :
    Frame u s s1 :=
  ⟨h1, [], by simp [h2], by simp, fun _ => ⟨by simp, by rw [h3]; exact id, by rw [h4]; exact id⟩⟩

/-- Printing first does not affect the frame. -/
theorem Frame.print_left (u : Bool) (s s1 : Engine) (ds : List Diag)
    (hf : Frame u (s.print ds) s1) : Frame u s s1 := hf

/-- A query keeps the frame. -/
theorem taint_query_hypercall_frame (u : Bool) (h : Host) (phs : PandaHypercallStruct)
    (s s1 : Engine) (hres : taint_query_hypercall h phs s = .ok s1) : Frame u s s1 := by
  rcases taint_query_hypercall_inv h phs s s1 hres with h1 | ⟨sc, data, tq, _, h1⟩
  · subst h1; exact Frame.of_same u _ _ rfl rfl rfl rfl
  · subst h1; exact Frame.of_same u _ _ rfl rfl rfl rfl

/-- An attack-point record keeps the frame. -/
theorem lava_attack_point_frame (u : Bool) (h : Host) (phs : PandaHypercallStruct)
    (s : Engine) : Frame u s (lava_attack_point h phs s) := by
  unfold lava_attack_point
  split <;> exact Frame.of_same _ _ _ rfl rfl rfl rfl

/-- The enable transition keeps the frame: it only ever switches instrumented
execution on. -/
theorem taint2_enable_taint_frame (h : Host) (s s1 : Engine)
    (hres : taint2_enable_taint h s = .ok s1) : Frame false s s1 := by
  by_cases hen : s.taintEnabled = true
  · simp only [taint2_enable_taint, hen, if_true, Except.ok.injEq] at hres
    subst hres
    exact Frame.of_same _ _ _ rfl rfl rfl rfl
  · by_cases hv : h.verifyModule = true
    · simp [taint2_enable_taint, hen, hv] at hres
    · by_cases he : s.execute_llvm = 0 <;> by_cases ho : s.optimize_llvm = true
      all_goals
        simp only [taint2_enable_taint, Engine.print, Engine.call, panda_enable_llvm, hen, hv, he,
          ho, if_true, if_false, List.append_assoc, Except.ok.injEq, Bool.false_eq_true,
          ↓reduceIte] at hres
        subst hres
        refine ⟨rfl, _, rfl, ?_, fun _ => ⟨?_, ?_, ?_⟩⟩
        all_goals simp [he]

/-- Single-label labeling keeps the frame. -/
theorem add_taint_single_frame (u : Bool) (h : Host) (addr len label : Nat) (s s1 : Engine)
    (hres : taint2_add_taint_ram_single_label h addr len label s = .ok s1) : Frame u s s1 := by
  unfold taint2_add_taint_ram_single_label at hres
  cases hq : add_taint_ram h addr (fun _ => label) len 0 s.shadow with
  | error e => rw [hq] at hres; simp [bind, Except.bind] at hres
  | ok sh =>
    rw [hq] at hres
    simp only [bind, Except.bind, pure, Except.pure, Except.ok.injEq] at hres
    subst hres
    exact Frame.of_same u _ _ rfl rfl rfl rfl

/-- Positional labeling keeps the frame. -/
theorem add_taint_pos_frame (u : Bool) (h : Host) (addr len label : Nat) (s s1 : Engine)
    (hres : taint2_add_taint_ram_pos h addr len label s = .ok s1) : Frame u s s1 := by
  unfold taint2_add_taint_ram_pos at hres
  cases hq : add_taint_ram h addr (fun i => (label + i) % U32) len 0 s.shadow with
  | error e => rw [hq] at hres; simp [bind, Except.bind] at hres
  | ok sh =>
    rw [hq] at hres
    simp only [bind, Except.bind, pure, Except.pure, Except.ok.injEq] at hres
    subst hres
    exact Frame.of_same u _ _ rfl rfl rfl rfl

/-- The trap handler keeps the frame on every target. -/
theorem guest_hypercall_callback_frame (t : Target) (h : Host) (cpu : CPUState)
    (s s1 : Engine) (r : Nat) (hres : guest_hypercall_callback t h cpu s = .ok (r, s1)) :
    Frame false s s1 := by
  cases t with
  | OTHER =>
    simp only [guest_hypercall_callback, pure, Except.pure, Except.ok.injEq, Prod.mk.injEq] at hres
    rw [← hres.2]
    exact Frame.of_same _ _ _ rfl rfl rfl rfl
  | ARM =>
    simp only [guest_hypercall_callback] at hres
    split at hres
    · split at hres
      · cases hq : taint2_enable_taint h
            (s.print [Diag.label_detected h.rr_get_guest_instr_count, Diag.enabling_taint]) with
        | error e => rw [hq] at hres; simp [bind, Except.bind] at hres
        | ok s2 =>
          rw [hq] at hres
          simp only [bind, Except.bind, pure, Except.pure, Except.ok.injEq, Prod.mk.injEq] at hres
          rw [← hres.2]
          exact Frame.print_left _ _ _ _ (taint2_enable_taint_frame h _ _ hq)
      · simp only [pure, Except.pure, Except.ok.injEq, Prod.mk.injEq] at hres
        rw [← hres.2]
        exact Frame.of_same _ _ _ rfl rfl rfl rfl
    · repeat' split at hres
      all_goals
        simp only [pure, Except.pure, Except.ok.injEq, Prod.mk.injEq] at hres
        rw [← hres.2]
        exact Frame.of_same _ _ _ rfl rfl rfl rfl
  | I386 R =>
    simp only [guest_hypercall_callback] at hres
    repeat' split at hres
    all_goals first
      | (simp only [pure, Except.pure, Except.ok.injEq, Prod.mk.injEq] at hres
         rw [← hres.2]
         exact Frame.of_same _ _ _ rfl rfl rfl rfl)
      | (simp only [bind, Except.bind] at hres
         split at hres
         · simp at hres
         · rename_i s2 hq
           simp only [pure, Except.pure, Except.ok.injEq, Prod.mk.injEq] at hres
           rw [← hres.2]
           first
             | exact Frame.print_left _ _ _ _ (add_taint_single_frame _ h _ _ _ _ _ hq)
             | exact Frame.print_left _ _ _ _ (add_taint_pos_frame _ h _ _ _ _ _ hq)
             | exact taint_query_hypercall_frame _ h _ _ _ hq)
      | (simp only [pure, Except.pure, Except.ok.injEq, Prod.mk.injEq] at hres
         rw [← hres.2]
         exact lava_attack_point_frame _ _ _ _)

/-- Plugin load keeps the frame. -/
theorem init_plugin_frame (h : Host) (self : Nat) (s s1 : Engine) (r : Bool)
    (hres : init_plugin h self s = .ok (r, s1)) : Frame false s s1 := by
  by_cases hi : h.init_callstack_instr_api = true
  · by_cases ht : h.TAINT2_HYPERCALLS = true
    all_goals
      simp only [init_plugin, Engine.print, Engine.call, hi, ht, if_true, if_false,
        List.append_assoc, Except.ok.injEq, Prod.mk.injEq, Bool.false_eq_true, ↓reduceIte] at hres
      rw [← hres.2]
      refine ⟨rfl, _, rfl, ?_, fun _ => ⟨?_, ?_, ?_⟩⟩
      all_goals simp
  · simp [init_plugin, hi] at hres

/-- Every operation other than `after_block_exec` keeps the frame. -/
theorem step_frame (h : Host) (op : Op) (s s1 : Engine) (hres : step h op s = .ok s1)
    (hop : op.is_after_block_exec = false) : Frame op.is_uninit_plugin s s1 := by
  cases op with
  | taint_query_hypercall phs => exact taint_query_hypercall_frame _ h phs s s1 hres
  | lava_attack_point phs =>
    simp only [step, lava_attack_point, Except.ok.injEq] at hres
    subst hres
    split <;> exact Frame.of_same _ _ _ rfl rfl rfl rfl
  | guest_hypercall_callback t cpu =>
    simp only [step] at hres
    cases hq : guest_hypercall_callback t h cpu s with
    | error e => rw [hq] at hres; simp [Except.map] at hres
    | ok p =>
      rw [hq] at hres
      simp only [Except.map, Except.ok.injEq] at hres
      subst hres
      exact guest_hypercall_callback_frame t h cpu s p.2 p.1 hq
  | phys_mem_write_callback addr =>
    simp only [step, phys_mem_write_callback, Except.ok.injEq] at hres
    subst hres
    exact Frame.of_same _ _ _ rfl rfl rfl rfl
  | phys_mem_read_callback addr =>
    simp only [step, phys_mem_read_callback, Except.ok.injEq] at hres
    subst hres
    exact Frame.of_same _ _ _ rfl rfl rfl rfl
  | taint2_enable_tainted_pointer =>
    simp only [step, taint2_enable_tainted_pointer, Except.ok.injEq] at hres
    subst hres
    exact Frame.of_same _ _ _ rfl rfl rfl rfl
  | taint2_enable_taint => exact taint2_enable_taint_frame h s s1 hres
  | after_block_exec => simp [Op.is_after_block_exec] at hop
  | taint_state_changed r a n =>
    simp only [step, taint_state_changed, Except.ok.injEq] at hres
    subst hres
    split
    · exact ⟨rfl, _, rfl, by simp, fun _ => ⟨by simp, id, id⟩⟩
    · exact Frame.of_same _ _ _ rfl rfl rfl rfl
  | before_block_exec_invalidate_opt tb =>
    simp only [step, Except.ok.injEq] at hres
    subst hres
    unfold before_block_exec_invalidate_opt
    split <;> exact Frame.of_same _ _ _ rfl rfl rfl rfl
  | init_plugin self =>
    simp only [step] at hres
    cases hq : init_plugin h self s with
    | error e => rw [hq] at hres; simp [Except.map] at hres
    | ok p =>
      rw [hq] at hres
      simp only [Except.map, Except.ok.injEq] at hres
      subst hres
      exact init_plugin_frame h self s p.2 p.1 hq
  | uninit_plugin =>
    simp only [step, Except.ok.injEq] at hres
    subst hres
    refine ⟨?_, ?_⟩
    · simp only [uninit_plugin, Engine.call, panda_disable_llvm]
      split <;> rfl
    · refine ⟨[HostCall.panda_disable_llvm, HostCall.panda_disable_memcb,
        HostCall.panda_enable_tb_chaining], ?_, by simp, fun hu => by simp [Op.is_uninit_plugin] at hu⟩
      simp only [uninit_plugin, Engine.call, panda_disable_llvm]
      split <;> simp

/-- The hook `after_block_exec` tears down exactly when the marker is set. -/
theorem after_block_exec_eq (s : Engine) :
    after_block_exec s = (0, if s.taintJustDisabled then teardown s else s) := by
  unfold after_block_exec teardown
  split <;> rfl

/-- Along any run, the disable marker is cleared by the first
`after_block_exec` and never set again, and the host is asked to flush
translations once if the marker was set and an `after_block_exec` occurs,
never otherwise. -/
theorem run_teardown_once (h : Host) : ∀ (ops : List Op) (s s1 : Engine),
    run h ops s = .ok s1 →
    s1.taintJustDisabled = (s.taintJustDisabled && !ops.any Op.is_after_block_exec) ∧
    s1.host_calls.count HostCall.panda_do_flush_tb =
      s.host_calls.count HostCall.panda_do_flush_tb +
        (if (s.taintJustDisabled && ops.any Op.is_after_block_exec) = true then 1 else 0) := by
  intro ops
  induction ops with
  | nil =>
    intro s s1 hres
    simp only [run, Except.ok.injEq] at hres
    subst hres
    simp
  | cons op ops ih =>
    intro s s1 hres
    rw [run] at hres
    cases hstep : step h op s with
    | error e => rw [hstep] at hres; simp [bind, Except.bind] at hres
    | ok s2 =>
      rw [hstep] at hres
      simp only [bind, Except.bind] at hres
      obtain ⟨ih1, ih2⟩ := ih s2 s1 hres
      by_cases hop : op.is_after_block_exec = true
      · cases op <;> simp [Op.is_after_block_exec] at hop
        simp only [step, after_block_exec_eq, Except.ok.injEq] at hstep
        subst hstep
        by_cases hm : s.taintJustDisabled = true
        · simp only [hm, if_true] at ih1 ih2
          simp [ih1, ih2, hm, teardown, Engine.call, Op.is_after_block_exec, List.count_append]
        · simp only [Bool.not_eq_true] at hm
          simp only [hm, Bool.false_eq_true, if_false] at ih1 ih2
          simp [ih1, ih2, hm]
      · simp only [Bool.not_eq_true] at hop
        obtain ⟨hf1, cs, hf2, hf3, _⟩ := step_frame h op s s2 hstep hop
        rw [hf1] at ih1 ih2
        rw [hf2, List.count_append, List.count_eq_zero_of_not_mem hf3] at ih2
        simp [ih1, ih2, hop]

/-- C7 (fails as stated). Plugin unload, `uninit_plugin`, is another operation
of the file that turns instrumented execution off: it asks the host for
`panda_disable_llvm` whatever the disable marker says. -/
theorem uninit_plugin_disables_llvm :
    ({ enabled_engine with execute_llvm := 1, generate_llvm := 1 } : Engine).taintJustDisabled
      = false ∧
    (uninit_plugin { enabled_engine with execute_llvm := 1, generate_llvm := 1 }).host_calls =
      [HostCall.panda_disable_llvm, HostCall.panda_disable_memcb,
       HostCall.panda_enable_tb_chaining] ∧
    (uninit_plugin { enabled_engine with execute_llvm := 1, generate_llvm := 1 }).execute_llvm
      = 0 ∧
    (uninit_plugin { enabled_engine with execute_llvm := 1, generate_llvm := 1 }).generate_llvm
      = 0 := by
  decide

/-- C7 (as amended). `after_block_exec` performs the teardown (marker cleared,
`execute_llvm` and `generate_llvm` set to 0, flush of cached translations and
disabling of the memory callbacks requested) when the disable marker is set on
entry and changes nothing when it is not; along any sequence of operations of
the file the marker is cleared by the first `after_block_exec` and never set
again, so the flush is requested exactly once if the marker was set and an
`after_block_exec` occurs and not at all otherwise; and no operation other than
`after_block_exec` and `uninit_plugin` switches instrumented execution off,
while `uninit_plugin` always does. -/
theorem two_phase_disable (h : Host) (s : Engine) :
    (s.taintJustDisabled = true → after_block_exec s = (0, teardown s)) ∧
    (s.taintJustDisabled = false → after_block_exec s = (0, s)) ∧
    (teardown s).taintJustDisabled = false ∧ (teardown s).execute_llvm = 0 ∧
    (teardown s).generate_llvm = 0 ∧
    (teardown s).host_calls =
      s.host_calls ++ [HostCall.panda_do_flush_tb, HostCall.panda_disable_memcb] ∧
    (∀ (ops : List Op) (s1 : Engine), run h ops s = .ok s1 →
      s1.taintJustDisabled = (s.taintJustDisabled && !ops.any Op.is_after_block_exec) ∧
      s1.host_calls.count HostCall.panda_do_flush_tb =
        s.host_calls.count HostCall.panda_do_flush_tb +
          (if (s.taintJustDisabled && ops.any Op.is_after_block_exec) = true then 1 else 0)) ∧
    (∀ (op : Op) (s1 : Engine), step h op s = .ok s1 →
      op.is_after_block_exec = false → op.is_uninit_plugin = false →
      (s.execute_llvm ≠ 0 → s1.execute_llvm ≠ 0) ∧ (s.generate_llvm ≠ 0 → s1.generate_llvm ≠ 0) ∧
      ∃ cs, s1.host_calls = s.host_calls ++ cs ∧ HostCall.panda_disable_llvm ∉ cs ∧
        HostCall.panda_do_flush_tb ∉ cs) ∧
    (uninit_plugin s).execute_llvm = 0 ∧ (uninit_plugin s).generate_llvm = 0 ∧
    HostCall.panda_disable_llvm ∈ (uninit_plugin s).host_calls := by
  refine ⟨?_, ?_, rfl, rfl, rfl, rfl, fun ops s1 hres => run_teardown_once h ops s s1 hres,
    ?_, ?_, ?_, ?_⟩
  · intro hm; rw [after_block_exec_eq, hm]; rfl
  · intro hm; rw [after_block_exec_eq, hm]; rfl
  · intro op s1 hres hop hun
    obtain ⟨_, cs, h2, h3, h4⟩ := step_frame h op s s1 hres hop
    obtain ⟨h5, h6, h7⟩ := h4 hun
    exact ⟨h6, h7, cs, h2, h5, h3⟩
  · simp only [uninit_plugin, Engine.call, panda_disable_llvm]
  · simp only [uninit_plugin, Engine.call, panda_disable_llvm]
  · simp only [uninit_plugin, Engine.call, panda_disable_llvm]
    simp

/-- Witness of `two_phase_disable`: with the marker set, the first
`after_block_exec` tears down and the second changes nothing. -/
theorem two_phase_disable_witness :
    disable_pending_engine.taintJustDisabled = true ∧
    after_block_exec disable_pending_engine = (0, teardown disable_pending_engine) ∧
    (teardown disable_pending_engine).taintJustDisabled = false ∧
    after_block_exec (teardown disable_pending_engine) = (0, teardown disable_pending_engine) :=
  ⟨rfl, (two_phase_disable zero_len_host disable_pending_engine).1 rfl,
   (two_phase_disable zero_len_host disable_pending_engine).2.2.1,
   (two_phase_disable zero_len_host (teardown disable_pending_engine)).2.1 rfl⟩

/-! ## C8: the before-block hook -/

/-- C8. `before_block_exec_invalidate_opt` answers true exactly when taint is
enabled and the block has no instrumented form (`llvm_tc_ptr` null); it answers
false for every block while taint is disabled; and it leaves the engine as it
was. -/
theorem before_block_exec_invalidate_opt_spec (tb : TranslationBlock) (s : Engine) :
    ((before_block_exec_invalidate_opt tb s).1 = true ↔
      (s.taintEnabled = true ∧ tb.llvm_tc_ptr = 0)) ∧
    (before_block_exec_invalidate_opt tb { s with taintEnabled := false }).1 = false ∧
    (before_block_exec_invalidate_opt tb s).2 = s := by
  refine ⟨?_, ?_, ?_⟩
  · unfold before_block_exec_invalidate_opt
    by_cases he : s.taintEnabled = true <;> by_cases hp : tb.llvm_tc_ptr = 0 <;> simp [he, hp]
  · simp [before_block_exec_invalidate_opt]
  · unfold before_block_exec_invalidate_opt
    split <;> rfl

/-! ## C9: offsets examined for an explicit length -/

/-- C9 (the code departs from it). For the explicit length 0 the scan loop
does not stop before examining an offset: on every host and shadow memory it
examines all `2^32` offsets `0, 1, ..., 2^32 - 1` and then reports length 0. -/
theorem zero_length_scan_examines_all_offsets (h : Host) (sh : ShadowState) :
    zero_len_request.len = 0 ∧
    ∃ sc, scan_loop h (some sh) zero_len_request (decide (zero_len_request.len = U32 - 1)) U32 0 0
        = .ok sc ∧
      sc.offset = 0 ∧ sc.examined = List.range' 0 U32 ∧ sc.examined.length = 4294967296 := by
  refine ⟨rfl, _, scan_explicit_zero h sh zero_len_request rfl, rfl, rfl, ?_⟩
  simp [U32]

/-! ## C10: the raw-byte snippet -/

/-- The address built for a change reads back, through the shadow-memory
routing, the very location that changed: same region, same shadow offset. -/
theorem taint_state_changed_addr_routes_back (h : Host) (sh : ShadowState) (r : ShadRef)
    (s : Nat) (a : Addr) (reg : FastShad) (ha : taint_state_changed_addr h r s = some a)
    (hr : sh.region r = some reg) : sh.labels h a = reg.query s := by
  cases r with
  | llv =>
    simp only [taint_state_changed_addr, make_laddr, Option.some.injEq] at ha
    simp only [ShadowState.region, Option.some.injEq] at hr
    subst ha hr
    simp only [ShadowState.labels]
    rw [Nat.mul_comm, Nat.div_add_mod]
  | ram =>
    simp only [taint_state_changed_addr, make_maddr, Option.some.injEq] at ha
    simp only [ShadowState.region, Option.some.injEq] at hr
    subst ha hr
    rfl
  | grv =>
    simp only [taint_state_changed_addr, make_greg, Option.some.injEq] at ha
    simp only [ShadowState.region, Option.some.injEq] at hr
    subst ha hr
    simp only [ShadowState.labels]
    rw [Nat.mul_comm, Nat.div_add_mod]
  | gsv =>
    simp only [taint_state_changed_addr, Option.some.injEq] at ha
    simp only [ShadowState.region, Option.some.injEq] at hr
    subst ha hr
    rfl
  | ret =>
    simp only [taint_state_changed_addr, Option.some.injEq] at ha
    simp only [ShadowState.region, Option.some.injEq] at hr
    subst ha hr
    rfl
  | other id => simp [taint_state_changed_addr] at ha

/-- Storing the offset in a field of `W` values changes no notified address,
provided `MAXREGSIZE` and `sizeof(target_ulong)` fit in the field and a
return-slot offset is below `W`. -/
theorem taint_state_changed_addr_narrow (h : Host) (W : Nat)
    (hM : 0 < h.MAXREGSIZE) (hMW : h.MAXREGSIZE ≤ W)
    (hT : 0 < h.sizeof_target_ulong) (hTW : h.sizeof_target_ulong ≤ W)
    (r : ShadRef) (s : Nat) (a : Addr) (hret : r = ShadRef.ret → s < W)
    (ha : taint_state_changed_addr h r s = some a) : a.narrow_off W = a := by
  cases r with
  | llv =>
    simp only [taint_state_changed_addr, make_laddr, Option.some.injEq] at ha
    subst ha
    have := Nat.mod_lt s hM
    simp only [Addr.narrow_off, Nat.mod_eq_of_lt (show s % h.MAXREGSIZE < W by omega)]
  | ram =>
    simp only [taint_state_changed_addr, make_maddr, Option.some.injEq] at ha
    subst ha
    simp [Addr.narrow_off]
  | grv =>
    simp only [taint_state_changed_addr, make_greg, Option.some.injEq] at ha
    subst ha
    have := Nat.mod_lt s hT
    simp only [Addr.narrow_off,
      Nat.mod_eq_of_lt (show s % h.sizeof_target_ulong < W by omega)]
  | gsv =>
    simp only [taint_state_changed_addr, Option.some.injEq] at ha
    subst ha
    simp [Addr.narrow_off]
  | ret =>
    simp only [taint_state_changed_addr, Option.some.injEq] at ha
    subst ha
    simp only [Addr.narrow_off, Nat.mod_eq_of_lt (hret rfl)]
  | other id => simp [taint_state_changed_addr] at ha

/-- C11. With `MAXREGSIZE` and `sizeof(target_ulong)` positive, the address
`taint_state_changed` notifies for a change at shadow offset `s` is: for the
local-value region `LADDR (s / MAXREGSIZE, s % MAXREGSIZE)` with byte offset
below `MAXREGSIZE`; for RAM `MADDR s`; for the CPU-register region
`GREG (s / sizeof(target_ulong), s % sizeof(target_ulong))`; for global-special
`GSPEC s` with offset 0; for return-slot `RET` with offset `s`. Two changes
give equal addresses only if they are in the same region at the same shadow
offset. A change in one of the five regions runs the observers once with that
address and the size; a change in any other store runs none and leaves the
engine as it was. -/
theorem taint_state_changed_addr_faithful (h : Host) (hM : 0 < h.MAXREGSIZE)
    (hT : 0 < h.sizeof_target_ulong) :
    (∀ s, taint_state_changed_addr h ShadRef.llv s =
        some ⟨AddrType.LADDR, s / h.MAXREGSIZE, s % h.MAXREGSIZE, 0⟩ ∧
      s % h.MAXREGSIZE < h.MAXREGSIZE) ∧
    (∀ s, taint_state_changed_addr h ShadRef.ram s = some ⟨AddrType.MADDR, s, 0, 0⟩) ∧
    (∀ s, taint_state_changed_addr h ShadRef.grv s =
        some ⟨AddrType.GREG, s / h.sizeof_target_ulong, s % h.sizeof_target_ulong, 0⟩ ∧
      s % h.sizeof_target_ulong < h.sizeof_target_ulong) ∧
    (∀ s, taint_state_changed_addr h ShadRef.gsv s = some ⟨AddrType.GSPEC, s, 0, 0⟩) ∧
    (∀ s, taint_state_changed_addr h ShadRef.ret s = some ⟨AddrType.RET, 0, s, 0⟩) ∧
    (∀ (r1 r2 : ShadRef) (s1 s2 : Nat) (a : Addr),
      taint_state_changed_addr h r1 s1 = some a → taint_state_changed_addr h r2 s2 = some a →
      r1 = r2 ∧ s1 = s2) ∧
    (∀ (r : ShadRef) (s size : Nat) (a : Addr) (e : Engine),
      taint_state_changed_addr h r s = some a →
      taint_state_changed h r s size e = e.call [HostCall.on_taint_change a size]) ∧
    (∀ (id s size : Nat) (e : Engine),
      taint_state_changed_addr h (ShadRef.other id) s = none ∧
      taint_state_changed h (ShadRef.other id) s size e = e) := by
  refine ⟨fun s => ⟨rfl, Nat.mod_lt _ hM⟩, fun s => rfl, fun s => ⟨rfl, Nat.mod_lt _ hT⟩,
    fun s => rfl, fun s => rfl, ?_, ?_, fun id s size e => ⟨rfl, rfl⟩⟩
  · intro r1 r2 s1 s2 a h1 h2
    have hdm : ∀ (m x y : Nat), x / m = y / m → x % m = y % m → x = y := by
      intro m x y hd hmod
      rw [← Nat.div_add_mod x m, ← Nat.div_add_mod y m, hd, hmod]
    have h12 : taint_state_changed_addr h r1 s1 = taint_state_changed_addr h r2 s2 :=
      h1.trans h2.symm
    cases r1 <;> cases r2 <;>
      simp only [taint_state_changed_addr, make_laddr, make_maddr, make_greg,
        Option.some.injEq, Addr.mk.injEq, reduceCtorEq, false_and, and_false, and_true,
        true_and] at h12 h1 <;>
      first
        | exact ⟨rfl, h12⟩
        | exact ⟨rfl, hdm _ _ _ h12.1 h12.2⟩
  · intro r s size a e ha
    simp only [taint_state_changed, ha]

/-- Witness for C11 on a target with `MAXREGSIZE = 16` and 4-byte
`target_ulong`: offset 35 of the local-value region is byte 3 of slot 2. -/
theorem taint_state_changed_addr_faithful_witness :
    (0 < zero_len_host.MAXREGSIZE ∧ 0 < zero_len_host.sizeof_target_ulong) ∧
    taint_state_changed_addr zero_len_host ShadRef.llv 35 =
      some ⟨AddrType.LADDR, 35 / zero_len_host.MAXREGSIZE, 35 % zero_len_host.MAXREGSIZE, 0⟩ ∧
    35 % zero_len_host.MAXREGSIZE < zero_len_host.MAXREGSIZE :=
  ⟨⟨by decide, by decide⟩,
   (taint_state_changed_addr_faithful zero_len_host (by decide) (by decide)).1 35⟩

end Taint2
